import Mathlib

/-!
Verification of the shared-memory OHLCV writer core of the repository
(`data-source-nexus/native/include/shm_protocol.h` and
`data-source-nexus/native/src/shm_writer.cpp`).

The C++ core is embedded shallowly:

* C++ strings are byte lists (`Bytes`); `strncpy` into a fixed
  null-terminated field is `setSymbolBytes` / `setIntervalBytes`
  (bytes up to the first NUL, cut to the field width minus one).
* The mapped region is modelled field-wise: `Header`, `SymbolIndexEntry`,
  `SymbolIndex` (its active entries, `count = entries.length`) and the
  data section as a map from byte offset to the block stored there.
* Machine integers are `Nat`; the only counter that can realistically be
  incremented without bound is the 64-bit `sequence`, so its increments
  are taken mod `2^64` (`u64`).  The allocator cursor and all size fields
  are bounded by the region size (at most 1 GiB) plus one block
  (at most 56 + 48 * 100000 bytes), far below `2^32`, so plain `Nat`
  arithmetic coincides with the machine arithmetic there.
* Every store the writer performs into the mapped region is additionally
  recorded as a `ByteWrite` (byte offset and length, computed from the
  packed struct layout of `shm_protocol.h`), so that bounds claims about
  raw writes can be stated.
* `GetTimestampMicros()` and `getpid()` are impure; each operation takes
  their return values as explicit arguments.  The platform shared-memory
  syscalls are abstracted by a `PlatformResult` argument to `Create`.
-/

namespace ShmSpec

/-- Bytes of a C++ `std::string` (each entry one byte value). -/
abbrev Bytes := List Nat

/-! ## Constants (`shm_protocol.h`, lines 31-42) -/

def MAGIC : Nat := 0x514E5853

def VERSION : Nat := 1

def REGION_SIZE : Nat := 128 * 1024 * 1024

def MAX_SYMBOLS : Nat := 256

def MAX_CANDLES_PER_SYMBOL : Nat := 100000

def SYMBOL_NAME_SIZE : Nat := 16

def INTERVAL_SIZE : Nat := 8

def HEADER_OFFSET : Nat := 0

def SYMBOL_INDEX_OFFSET : Nat := 256

def SYMBOL_INDEX_SIZE : Nat := 16384

def DATA_SECTIONS_OFFSET : Nat := 16640

/-- `sizeof(SymbolIndexEntry)` for the packed struct: 16 + 8 + 4 + 4 + 8. -/
def symbolIndexEntrySize : Nat := 40

/-- `sizeof(Candle)` for the packed struct: 8 + 5 * 8. -/
def candleSize : Nat := 48

/-- `sizeof(OHLCVDataBlock)` (header part, flexible array empty):
16 + 8 + 4 + 4 + 8 + 8 + 8. -/
def ohlcvBlockHeaderSize : Nat := 56

/-- `OHLCVDataBlock::RequiredSize(n)` (`shm_protocol.h`, line 246). -/
def RequiredSize (n : Nat) : Nat := ohlcvBlockHeaderSize + n * candleSize

/-- Byte offset of `symbol_index.entries[i]` from the region start:
the index sits at 256, its `count` field and 4 padding bytes precede
the entry array. -/
def entryOffset (i : Nat) : Nat := SYMBOL_INDEX_OFFSET + 8 + i * symbolIndexEntrySize

/-- One past the last byte of the symbol-index entry array
(`256 + 8 + 256 * 40 = 10504`). -/
def INDEX_ENTRIES_END : Nat := SYMBOL_INDEX_OFFSET + 8 + MAX_SYMBOLS * symbolIndexEntrySize

/-- 64-bit wraparound for the `uint64_t sequence` counter. -/
def u64 (n : Nat) : Nat := n % 2 ^ 64

/-! ## String handling (`strncpy` into fixed fields) -/

/-- `SymbolIndexEntry::SetSymbol` / `OHLCVDataBlock::SetSymbol`:
`strncpy(symbol, sym.c_str(), 15); symbol[15] = 0` stores the bytes of
`sym` up to its first NUL byte, cut to 15 bytes. -/
def setSymbolBytes (sym : Bytes) : Bytes :=
  (sym.takeWhile (fun b => b ≠ 0)).take (SYMBOL_NAME_SIZE - 1)

/-- `OHLCVDataBlock::SetInterval`: same with a 8-byte field. -/
def setIntervalBytes (intvl : Bytes) : Bytes :=
  (intvl.takeWhile (fun b => b ≠ 0)).take (INTERVAL_SIZE - 1)

/-! ## Data model -/

/-- `CandleData` (`shm_writer.h`, lines 39-46).  The five `double`
payload fields are opaque 64-bit patterns: the writer copies them
verbatim and never computes with them. -/
structure CandleData where
  timestamp : Nat
  open_ : Nat
  high : Nat
  low : Nat
  close : Nat
  volume : Nat
deriving DecidableEq, Repr

/-- `Header` (`shm_protocol.h`, lines 48-73); the 212 reserved bytes
carry no information. -/
structure Header where
  magic : Nat
  version : Nat
  writer_pid : Nat
  reader_pid : Nat
  last_update_us : Nat
  sequence : Nat
  symbol_count : Nat
  flags : Nat
  crc32 : Nat
deriving DecidableEq, Repr

/-- `SymbolIndexEntry` (`shm_protocol.h`, lines 81-109).  `symbol` holds
the stored (already truncated, NUL-free) name bytes, exactly what
`GetSymbol()` reads back. -/
structure SymbolIndexEntry where
  symbol : Bytes
  data_offset : Nat
  data_size : Nat
  candle_count : Nat
  last_update_us : Nat
deriving DecidableEq, Repr

/-- The all-zero entry produced by `initialize_region`'s `memset`;
slots past `count` hold it until `Add` claims them. -/
def emptyEntry : SymbolIndexEntry := ⟨[], 0, 0, 0, 0⟩

/-- `SymbolIndex` (`shm_protocol.h`, lines 117-161): the active entries
`entries[0..count)`; the zeroed tail is represented implicitly and
`count` is `entries.length`. -/
structure SymbolIndex where
  entries : List SymbolIndexEntry
deriving DecidableEq, Repr

def SymbolIndex.count (ix : SymbolIndex) : Nat := ix.entries.length

/-- The scan of `SymbolIndex::Find` (lines 126-133): first `i` with
`entries[i].GetSymbol() == symbol` (stored truncated name compared with
the full query). -/
def findSymbolIdx : List SymbolIndexEntry → Bytes → Option Nat
  | [], _ => none
  | e :: es, sym =>
      if e.symbol = sym then some 0 else (findSymbolIdx es sym).map (· + 1)

def SymbolIndex.FindIdx (ix : SymbolIndex) (symbol : Bytes) : Option Nat :=
  findSymbolIdx ix.entries symbol

/-- `SymbolIndex::Add` (lines 146-153): claim `entries[count]` (all-zero
until now), store the truncated name, bump `count`.  Returns the new
index and the claimed slot. -/
def SymbolIndex.Add (ix : SymbolIndex) (symbol : Bytes) : Option (SymbolIndex × Nat) :=
  if MAX_SYMBOLS ≤ ix.entries.length then none
  else some (⟨ix.entries ++ [{ emptyEntry with symbol := setSymbolBytes symbol }]⟩,
             ix.entries.length)

/-- `OHLCVDataBlock` (`shm_protocol.h`, lines 189-249).  `candles` holds
the `count` records reachable through the `count` field; bytes beyond
them inside the allocated capacity are unreachable residue. -/
structure OHLCVDataBlock where
  symbol : Bytes
  interval : Bytes
  count : Nat
  capacity : Nat
  start_timestamp : Nat
  end_timestamp : Nat
  candles : List CandleData
deriving DecidableEq, Repr

/-- `SharedMemoryRegion` (`shm_protocol.h`, lines 255-323).
`data_sections` maps a byte offset from the region start to the block
stored there, if any. -/
structure SharedMemoryRegion where
  header : Header
  symbol_index : SymbolIndex
  data_sections : Nat → Option OHLCVDataBlock

/-- The writer's own fields (`shm_writer.h`, lines 146-151).
`region_ = none` models the null `region_` pointer (not initialized). -/
structure SharedMemoryWriter where
  name_ : Bytes
  size_ : Nat
  region_ : Option SharedMemoryRegion
  next_data_offset_ : Nat

/-- The default-constructed writer (`shm_writer.cpp`, lines 20-27). -/
def initialWriter : SharedMemoryWriter :=
  ⟨[], 0, none, DATA_SECTIONS_OFFSET⟩

/-- `WriterError` (`shm_writer.h`, lines 51-62). -/
inductive WriterError where
  | OK
  | INVALID_NAME
  | INVALID_SIZE
  | CREATE_FAILED
  | MAPPING_FAILED
  | WRITE_FAILED
  | SYMBOL_NOT_FOUND
  | SYMBOL_LIMIT_EXCEEDED
  | CANDLE_LIMIT_EXCEEDED
  | NOT_INITIALIZED
deriving DecidableEq, Repr

/-- `WriterStats` (`shm_writer.h`, lines 67-73). -/
structure WriterStats where
  total_symbols : Nat
  total_candles : Nat
  memory_used : Nat
  last_write_us : Nat
  write_count : Nat
deriving DecidableEq, Repr

/-- Outcome of `platform_create` (`shm_writer.cpp`, lines 253-335): it
either maps the region or fails with one of two errors. -/
inductive PlatformResult where
  | ok
  | createFailed
  | mappingFailed
deriving DecidableEq, Repr

/-! ## Byte-write instrumentation

Every store into the mapped region is logged as offset/length computed
from the packed layout of `shm_protocol.h`; the `kind` tags whether it
lands in the header, the symbol index, or a data block (the block's
`memset` zero-fill is tagged separately from its population). -/

inductive WriteKind where
  | headerField
  | indexField
  | zeroFill
  | payload
deriving DecidableEq, Repr

structure ByteWrite where
  kind : WriteKind
  offset : Nat
  len : Nat
deriving DecidableEq, Repr

/-- Stores of `initialize_region` (`shm_writer.cpp`, lines 180-199):
the nine header fields, `symbol_index.count`, and the `memset` of all
256 entries (`264 .. 10504`). -/
def initFootprint : List ByteWrite :=
  [⟨.headerField, 0, 4⟩, ⟨.headerField, 4, 4⟩, ⟨.headerField, 8, 4⟩,
   ⟨.headerField, 12, 4⟩, ⟨.headerField, 16, 8⟩, ⟨.headerField, 24, 8⟩,
   ⟨.headerField, 32, 4⟩, ⟨.headerField, 36, 4⟩, ⟨.headerField, 40, 4⟩,
   ⟨.indexField, SYMBOL_INDEX_OFFSET, 4⟩,
   ⟨.indexField, SYMBOL_INDEX_OFFSET + 8, MAX_SYMBOLS * symbolIndexEntrySize⟩]

/-- `begin_write` store: `header.sequence` (offset 24, 8 bytes). -/
def beginTrace : List ByteWrite := [⟨.headerField, 24, 8⟩]

/-- `end_write` stores: `sequence` then `last_update_us`. -/
def endTrace : List ByteWrite := [⟨.headerField, 24, 8⟩, ⟨.headerField, 16, 8⟩]

/-- Stores of `SymbolIndex::Add` plus the `symbol_count` refresh in
`find_or_add_symbol`: the 16 name bytes of slot `i`, then
`header.symbol_count` (offset 32). -/
def addTrace (i : Nat) : List ByteWrite :=
  [⟨.indexField, entryOffset i, 16⟩, ⟨.headerField, 32, 4⟩]

/-- Stores of `entry->data_offset` / `entry->data_size`
(`shm_writer.cpp`, lines 105-106 and 116-117). -/
def repointTrace (i : Nat) : List ByteWrite :=
  [⟨.indexField, entryOffset i + 16, 8⟩, ⟨.indexField, entryOffset i + 24, 4⟩]

/-- Stores populating the block at offset `d` with `n` candles
(`shm_writer.cpp`, lines 128-150) followed by the index-entry
`candle_count` / `last_update_us` refresh of slot `i`. -/
def blockTrace (d i n : Nat) : List ByteWrite :=
  [⟨.payload, d, 16⟩, ⟨.payload, d + 16, 8⟩, ⟨.payload, d + 24, 4⟩,
   ⟨.payload, d + 28, 4⟩, ⟨.payload, d + 32, 8⟩, ⟨.payload, d + 40, 8⟩,
   ⟨.payload, d + 56, n * candleSize⟩,
   ⟨.indexField, entryOffset i + 28, 4⟩, ⟨.indexField, entryOffset i + 32, 8⟩]

/-! ## Operations (`shm_writer.cpp`) -/

/-- `initialize_region` (lines 180-199): fresh header, empty index,
cursor reset to the data-section start. -/
def initialize_region (pid now_us : Nat) : SharedMemoryRegion :=
  { header := { magic := MAGIC, version := VERSION, writer_pid := pid,
                reader_pid := 0, last_update_us := now_us, sequence := 0,
                symbol_count := 0, flags := 0, crc32 := 0 },
    symbol_index := ⟨[]⟩,
    data_sections := fun _ => none }

/-- `Close` (lines 60-67). -/
def Close (s : SharedMemoryWriter) : SharedMemoryWriter :=
  { s with name_ := [], size_ := 0, region_ := none,
           next_data_offset_ := DATA_SECTIONS_OFFSET }

/-- `Create` (lines 33-58).  `platform` abstracts the outcome of the
platform shared-memory syscalls; `pid` and `now_us` the impure
`getpid()` / `GetTimestampMicros()` values. -/
def Create (s : SharedMemoryWriter) (name : Bytes) (size : Nat)
    (pid now_us : Nat) (platform : PlatformResult) :
    WriterError × SharedMemoryWriter :=
  if name = [] then (.INVALID_NAME, s)
  else if size < 4352 ∨ 1024 * 1024 * 1024 < size then (.INVALID_SIZE, s)
  else
    let s1 := if s.region_.isSome then Close s else s
    let s2 := { s1 with name_ := name, size_ := size }
    match platform with
    | .createFailed => (.CREATE_FAILED, s2)
    | .mappingFailed => (.MAPPING_FAILED, s2)
    | .ok =>
        (.OK, { s2 with region_ := some (initialize_region pid now_us),
                        next_data_offset_ := DATA_SECTIONS_OFFSET })

/-- `begin_write` (lines 236-239): `sequence++` on a `uint64_t`. -/
def begin_write (r : SharedMemoryRegion) : SharedMemoryRegion :=
  { r with header := { r.header with sequence := u64 (r.header.sequence + 1) } }

/-- `end_write` (lines 241-245): `sequence++`, refresh the header
timestamp. -/
def end_write (r : SharedMemoryRegion) (now_us : Nat) : SharedMemoryRegion :=
  { r with
    header := { r.header with
                sequence := u64 (r.header.sequence + 1)
                last_update_us := now_us } }

/-- `find_or_add_symbol` (lines 201-219): scan, else append when the
directory is not full and refresh `header.symbol_count`.  Returns the
resolved slot, the updated region and the stores performed. -/
def find_or_add_symbol (r : SharedMemoryRegion) (symbol : Bytes) :
    Option (Nat × SharedMemoryRegion × List ByteWrite) :=
  match r.symbol_index.FindIdx symbol with
  | some i => some (i, r, [])
  | none =>
      if MAX_SYMBOLS ≤ r.symbol_index.count then none
      else
        match r.symbol_index.Add symbol with
        | none => none
        | some (ix, i) =>
            some (i, { r with symbol_index := ix,
                              header := { r.header with symbol_count := ix.count } },
                  addTrace i)

/-- `allocate_data_block` (lines 221-234): bump allocation with an
out-of-space check against the region size; the claimed bytes are
`memset` to zero (the `zeroFill` store).  Returns the offset (0 on
failure), the writer with the advanced cursor, and the stores. -/
def allocate_data_block (s : SharedMemoryWriter) (size : Nat) :
    Nat × SharedMemoryWriter × List ByteWrite :=
  if s.size_ < s.next_data_offset_ + size then (0, s, [])
  else (s.next_data_offset_,
        { s with next_data_offset_ := s.next_data_offset_ + size },
        [⟨.zeroFill, s.next_data_offset_, size⟩])

/-- The entry slot `entries[i]` the writer holds a pointer to. -/
def entryAt (r : SharedMemoryRegion) (i : Nat) : SymbolIndexEntry :=
  r.symbol_index.entries.getD i emptyEntry

/-- The block contents written by lines 128-146: truncated symbol and
interval, `count = capacity = candles.size()`, first/last timestamp,
and the candle records copied verbatim. -/
def mkBlock (symbol interval : Bytes) (candles : List CandleData) : OHLCVDataBlock :=
  { symbol := setSymbolBytes symbol,
    interval := setIntervalBytes interval,
    count := candles.length,
    capacity := candles.length,
    start_timestamp := (candles.headD ⟨0, 0, 0, 0, 0, 0⟩).timestamp,
    end_timestamp := (candles.getLastD ⟨0, 0, 0, 0, 0, 0⟩).timestamp,
    candles := candles }

/-- The tail of a successful `WriteCandles` (lines 124-152): populate
the block at offset `d`, refresh entry `i`, `end_write`. -/
def finishWrite (sw : SharedMemoryWriter) (r2 : SharedMemoryRegion)
    (i d : Nat) (e1 : SymbolIndexEntry) (symbol interval : Bytes)
    (candles : List CandleData) (now1 now2 : Nat) :
    WriterError × SharedMemoryWriter × List ByteWrite :=
  let e2 := { e1 with candle_count := candles.length, last_update_us := now1 }
  let r3 : SharedMemoryRegion :=
    { r2 with symbol_index := ⟨r2.symbol_index.entries.set i e2⟩,
              data_sections := fun o => if o = d then some (mkBlock symbol interval candles)
                                        else r2.data_sections o }
  (.OK, { sw with region_ := some (end_write r3 now2) },
   blockTrace d i candles.length ++ endTrace)

/-- `WriteCandles` (lines 69-155).  `now1` is the timestamp read for the
entry refresh (line 150), `now2` the one read by `end_write`. -/
def WriteCandles (s : SharedMemoryWriter) (symbol interval : Bytes)
    (candles : List CandleData) (now1 now2 : Nat) :
    WriterError × SharedMemoryWriter × List ByteWrite :=
  match s.region_ with
  | none => (.NOT_INITIALIZED, s, [])
  | some r0 =>
      if candles = [] then (.OK, s, [])
      else if MAX_CANDLES_PER_SYMBOL < candles.length then
        (.CANDLE_LIMIT_EXCEEDED, s, [])
      else
        match find_or_add_symbol (begin_write r0) symbol with
        | none =>
            (.SYMBOL_LIMIT_EXCEEDED,
             { s with region_ := some (end_write (begin_write r0) now2) },
             beginTrace ++ endTrace)
        | some (i, r2, t2) =>
            let e0 := entryAt r2 i
            let required_size := RequiredSize candles.length
            if e0.data_offset = 0 ∨ e0.data_size < required_size then
              let alloc := allocate_data_block s required_size
              if alloc.1 = 0 then
                (.WRITE_FAILED,
                 { alloc.2.1 with region_ := some (end_write r2 now2) },
                 beginTrace ++ t2 ++ alloc.2.2 ++ endTrace)
              else
                let res := finishWrite alloc.2.1 r2 i alloc.1
                  { e0 with data_offset := alloc.1, data_size := required_size }
                  symbol interval candles now1 now2
                (res.1, res.2.1,
                 beginTrace ++ t2 ++ alloc.2.2 ++ repointTrace i ++ res.2.2)
            else
              let res := finishWrite s r2 i e0.data_offset e0
                symbol interval candles now1 now2
              (res.1, res.2.1, beginTrace ++ t2 ++ res.2.2)

/-- Arguments of one `WriteCandles` call (the two timestamps are the
values the impure clock returns during the call). -/
structure WriteCall where
  symbol : Bytes
  interval : Bytes
  candles : List CandleData
  now1 : Nat
  now2 : Nat

/-- Run a list of `WriteCandles` calls, collecting each call's return
code. -/
def runWrites (s : SharedMemoryWriter) : List WriteCall → SharedMemoryWriter × List WriterError
  | [] => (s, [])
  | cl :: cls =>
      let out := WriteCandles s cl.symbol cl.interval cl.candles cl.now1 cl.now2
      let rest := runWrites out.2.1 cls
      (rest.1, out.1 :: rest.2)

/-- `GetStats` (lines 157-174). -/
def GetStats (s : SharedMemoryWriter) : WriterStats :=
  match s.region_ with
  | none => ⟨0, 0, 0, 0, 0⟩
  | some r =>
      { total_symbols := r.symbol_index.count,
        total_candles := (r.symbol_index.entries.map (·.candle_count)).sum,
        memory_used := s.next_data_offset_,
        last_write_us := r.header.last_update_us,
        write_count := r.header.sequence / 2 }

/-! ## State accessors used by the theorems -/

def seqOf (s : SharedMemoryWriter) : Nat :=
  match s.region_ with
  | none => 0
  | some r => r.header.sequence

def symbolCountOf (s : SharedMemoryWriter) : Nat :=
  match s.region_ with
  | none => 0
  | some r => r.header.symbol_count

def entriesOf (s : SharedMemoryWriter) : List SymbolIndexEntry :=
  match s.region_ with
  | none => []
  | some r => r.symbol_index.entries

def indexCountOf (s : SharedMemoryWriter) : Nat := (entriesOf s).length

def findIdxOf (s : SharedMemoryWriter) (symbol : Bytes) : Option Nat :=
  findSymbolIdx (entriesOf s) symbol

def dataAt (s : SharedMemoryWriter) (o : Nat) : Option OHLCVDataBlock :=
  match s.region_ with
  | none => none
  | some r => r.data_sections o

/-! ## The writer invariant

Established by `Create`, preserved by `WriteCandles`: the directory
never exceeds 256 entries, `header.symbol_count` mirrors it, every
stored name is its own truncation, the cursor starts at the
data-section start and stays inside the region once it has moved, and
every claimed block lies between the data-section start and the
cursor. -/

def EntryOk (next : Nat) (e : SymbolIndexEntry) : Prop :=
  e.symbol = setSymbolBytes e.symbol ∧
  (e.data_offset = 0 ∨
   (DATA_SECTIONS_OFFSET ≤ e.data_offset ∧ 0 < e.data_size ∧
    e.data_offset + e.data_size ≤ next))

instance (next : Nat) (e : SymbolIndexEntry) : Decidable (EntryOk next e) := by
  unfold EntryOk; infer_instance

def WriterInv (s : SharedMemoryWriter) : Prop :=
  match s.region_ with
  | none => True
  | some r =>
      r.symbol_index.entries.length ≤ MAX_SYMBOLS ∧
      r.header.symbol_count = r.symbol_index.entries.length ∧
      DATA_SECTIONS_OFFSET ≤ s.next_data_offset_ ∧
      (s.next_data_offset_ = DATA_SECTIONS_OFFSET ∨
       s.next_data_offset_ ≤ s.size_) ∧
      (∀ e ∈ r.symbol_index.entries, EntryOk s.next_data_offset_ e)

instance (s : SharedMemoryWriter) : Decidable (WriterInv s) := by
  unfold WriterInv
  match s.region_ with
  | none => exact inferInstance
  | some r => exact inferInstance

/-! ## Helper lemmas -/

lemma u64_u64_add (a b : Nat) : u64 (u64 a + b) = u64 (a + b) := by
  simp [u64, Nat.mod_add_mod]

lemma u64_mod_two (a : Nat) : u64 a % 2 = a % 2 :=
  Nat.mod_mod_of_dvd a (by norm_num)

lemma setSymbolBytes_idem (sym : Bytes) :
    setSymbolBytes (setSymbolBytes sym) = setSymbolBytes sym := by
  unfold setSymbolBytes
  have h1 : ((sym.takeWhile (fun b => b ≠ 0)).take (SYMBOL_NAME_SIZE - 1)).takeWhile
        (fun b => b ≠ 0)
      = (sym.takeWhile (fun b => b ≠ 0)).take (SYMBOL_NAME_SIZE - 1) := by
    apply List.takeWhile_eq_self_iff.mpr
    intro a ha
    have hmem : a ∈ sym.takeWhile (fun b => decide (b ≠ 0)) :=
      (List.take_sublist _ _).subset ha
    have hp := List.mem_takeWhile_imp hmem
    simpa using hp
  rw [h1, List.take_take, min_self]

lemma findSymbolIdx_none_iff (l : List SymbolIndexEntry) (sym : Bytes) :
    findSymbolIdx l sym = none ↔ ∀ e ∈ l, e.symbol ≠ sym := by
  induction l with
  | nil => simp [findSymbolIdx]
  | cons e es ih =>
      by_cases h : e.symbol = sym
      · simp [findSymbolIdx, h]
      · simp [findSymbolIdx, h, ih]

lemma findSymbolIdx_some (l : List SymbolIndexEntry) (sym : Bytes) (i : Nat)
    (h : findSymbolIdx l sym = some i) :
    i < l.length ∧ (l.getD i emptyEntry).symbol = sym := by
  induction l generalizing i with
  | nil => simp [findSymbolIdx] at h
  | cons e es ih =>
      by_cases he : e.symbol = sym
      · simp [findSymbolIdx, he] at h
        subst h
        simpa using he
      · simp [findSymbolIdx, he] at h
        obtain ⟨j, hj, rfl⟩ := h
        obtain ⟨h1, h2⟩ := ih j hj
        exact ⟨by simpa using h1, by simpa using h2⟩

lemma findSymbolIdx_append_one (l : List SymbolIndexEntry) (e : SymbolIndexEntry)
    (sym : Bytes) (hnone : findSymbolIdx l sym = none) (he : e.symbol = sym) :
    findSymbolIdx (l ++ [e]) sym = some l.length := by
  induction l with
  | nil => simp [findSymbolIdx, he]
  | cons x xs ih =>
      by_cases hx : x.symbol = sym
      · simp [findSymbolIdx, hx] at hnone
      · simp [findSymbolIdx, hx] at hnone ⊢
        simp [ih hnone]

lemma findSymbolIdx_set_same (l : List SymbolIndexEntry) (i : Nat)
    (e' : SymbolIndexEntry) (sym : Bytes)
    (hsym : ((l.getD i emptyEntry)).symbol = e'.symbol) :
    findSymbolIdx (l.set i e') sym = findSymbolIdx l sym := by
  induction l generalizing i with
  | nil => simp
  | cons x xs ih =>
      cases i with
      | zero =>
          simp only [List.getD_cons_zero] at hsym
          simp [findSymbolIdx, List.set, hsym]
      | succ j =>
          simp only [List.getD_cons_succ] at hsym
          simp [findSymbolIdx, List.set, ih j hsym]

/-! ### `find_or_add_symbol` branch equations -/

lemma foa_found (r : SharedMemoryRegion) (sym : Bytes) (i : Nat)
    (h : r.symbol_index.FindIdx sym = some i) :
    find_or_add_symbol r sym = some (i, r, []) := by
  simp [find_or_add_symbol, h]

lemma foa_full (r : SharedMemoryRegion) (sym : Bytes)
    (h : r.symbol_index.FindIdx sym = none)
    (hfull : MAX_SYMBOLS ≤ r.symbol_index.count) :
    find_or_add_symbol r sym = none := by
  simp [find_or_add_symbol, h, hfull]

lemma foa_fresh (r : SharedMemoryRegion) (sym : Bytes)
    (h : r.symbol_index.FindIdx sym = none)
    (hlt : r.symbol_index.count < MAX_SYMBOLS) :
    find_or_add_symbol r sym =
      some (r.symbol_index.entries.length,
            { r with
              symbol_index :=
                ⟨r.symbol_index.entries ++ [{ emptyEntry with symbol := setSymbolBytes sym }]⟩
              header := { r.header with
                          symbol_count := r.symbol_index.entries.length + 1 } },
            addTrace r.symbol_index.entries.length) := by
  have hnot : ¬ MAX_SYMBOLS ≤ r.symbol_index.count := Nat.not_le.mpr hlt
  have hnot' : ¬ MAX_SYMBOLS ≤ r.symbol_index.entries.length := hnot
  simp [find_or_add_symbol, h, hnot, SymbolIndex.Add, hnot', SymbolIndex.count]

/-! ### `WriteCandles` branch equations -/

lemma wc_notinit (s : SharedMemoryWriter) (hr : s.region_ = none)
    (sym intv : Bytes) (c : List CandleData) (n1 n2 : Nat) :
    WriteCandles s sym intv c n1 n2 = (.NOT_INITIALIZED, s, []) := by
  simp [WriteCandles, hr]

lemma wc_empty (s : SharedMemoryWriter) (r : SharedMemoryRegion)
    (hr : s.region_ = some r) (sym intv : Bytes) (n1 n2 : Nat) :
    WriteCandles s sym intv [] n1 n2 = (.OK, s, []) := by
  simp [WriteCandles, hr]

lemma wc_toolong (s : SharedMemoryWriter) (r : SharedMemoryRegion)
    (hr : s.region_ = some r) (sym intv : Bytes) (c : List CandleData) (n1 n2 : Nat)
    (h : MAX_CANDLES_PER_SYMBOL < c.length) :
    WriteCandles s sym intv c n1 n2 = (.CANDLE_LIMIT_EXCEEDED, s, []) := by
  have hne : c ≠ [] := by
    intro h0
    rw [h0] at h
    simp [MAX_CANDLES_PER_SYMBOL] at h
  simp [WriteCandles, hr, hne, h]

lemma wc_sle (s : SharedMemoryWriter) (r : SharedMemoryRegion)
    (hr : s.region_ = some r) (sym intv : Bytes) (c : List CandleData) (n1 n2 : Nat)
    (hne : c ≠ []) (hlen : ¬ MAX_CANDLES_PER_SYMBOL < c.length)
    (hfoa : find_or_add_symbol (begin_write r) sym = none) :
    WriteCandles s sym intv c n1 n2 =
      (.SYMBOL_LIMIT_EXCEEDED,
       { s with region_ := some (end_write (begin_write r) n2) },
       beginTrace ++ endTrace) := by
  simp [WriteCandles, hr, hne, hlen, hfoa]

lemma wc_alloc_fail (s : SharedMemoryWriter) (r r2 : SharedMemoryRegion)
    (hr : s.region_ = some r) (sym intv : Bytes) (c : List CandleData)
    (n1 n2 i : Nat) (t2 : List ByteWrite)
    (hne : c ≠ []) (hlen : ¬ MAX_CANDLES_PER_SYMBOL < c.length)
    (hfoa : find_or_add_symbol (begin_write r) sym = some (i, r2, t2))
    (hneed : (entryAt r2 i).data_offset = 0 ∨
             (entryAt r2 i).data_size < RequiredSize c.length)
    (hfail : s.size_ < s.next_data_offset_ + RequiredSize c.length) :
    WriteCandles s sym intv c n1 n2 =
      (.WRITE_FAILED, { s with region_ := some (end_write r2 n2) },
       beginTrace ++ t2 ++ endTrace) := by
  simp only [WriteCandles, hr, if_neg hne, if_neg hlen, hfoa]
  rw [if_pos hneed]
  simp [allocate_data_block, if_pos hfail]

lemma wc_alloc_ok (s : SharedMemoryWriter) (r r2 : SharedMemoryRegion)
    (hr : s.region_ = some r) (sym intv : Bytes) (c : List CandleData)
    (n1 n2 i : Nat) (t2 : List ByteWrite)
    (hne : c ≠ []) (hlen : ¬ MAX_CANDLES_PER_SYMBOL < c.length)
    (hfoa : find_or_add_symbol (begin_write r) sym = some (i, r2, t2))
    (hneed : (entryAt r2 i).data_offset = 0 ∨
             (entryAt r2 i).data_size < RequiredSize c.length)
    (hfits : ¬ s.size_ < s.next_data_offset_ + RequiredSize c.length)
    (hpos : s.next_data_offset_ ≠ 0) :
    WriteCandles s sym intv c n1 n2 =
      ((finishWrite { s with next_data_offset_ := s.next_data_offset_ + RequiredSize c.length }
          r2 i s.next_data_offset_
          { entryAt r2 i with
            data_offset := s.next_data_offset_
            data_size := RequiredSize c.length }
          sym intv c n1 n2).1,
       (finishWrite { s with next_data_offset_ := s.next_data_offset_ + RequiredSize c.length }
          r2 i s.next_data_offset_
          { entryAt r2 i with
            data_offset := s.next_data_offset_
            data_size := RequiredSize c.length }
          sym intv c n1 n2).2.1,
       beginTrace ++ t2 ++ [⟨.zeroFill, s.next_data_offset_, RequiredSize c.length⟩] ++
         repointTrace i ++
         blockTrace s.next_data_offset_ i c.length ++ endTrace) := by
  simp only [WriteCandles, hr, if_neg hne, if_neg hlen, hfoa]
  rw [if_pos hneed]
  simp only [allocate_data_block, if_neg hfits]
  rw [if_neg hpos]
  simp [finishWrite]

lemma wc_reuse (s : SharedMemoryWriter) (r r2 : SharedMemoryRegion)
    (hr : s.region_ = some r) (sym intv : Bytes) (c : List CandleData)
    (n1 n2 i : Nat) (t2 : List ByteWrite)
    (hne : c ≠ []) (hlen : ¬ MAX_CANDLES_PER_SYMBOL < c.length)
    (hfoa : find_or_add_symbol (begin_write r) sym = some (i, r2, t2))
    (hkeep : ¬ ((entryAt r2 i).data_offset = 0 ∨
                (entryAt r2 i).data_size < RequiredSize c.length)) :
    WriteCandles s sym intv c n1 n2 =
      ((finishWrite s r2 i (entryAt r2 i).data_offset
          (entryAt r2 i) sym intv c n1 n2).1,
       (finishWrite s r2 i (entryAt r2 i).data_offset
          (entryAt r2 i) sym intv c n1 n2).2.1,
       beginTrace ++ t2 ++
         blockTrace (entryAt r2 i).data_offset i c.length ++
         endTrace) := by
  simp only [WriteCandles, hr, if_neg hne, if_neg hlen, hfoa]
  rw [if_neg hkeep]
  simp [finishWrite]

lemma wc_alloc_zero (s : SharedMemoryWriter) (r r2 : SharedMemoryRegion)
    (hr : s.region_ = some r) (sym intv : Bytes) (c : List CandleData)
    (n1 n2 i : Nat) (t2 : List ByteWrite)
    (hne : c ≠ []) (hlen : ¬ MAX_CANDLES_PER_SYMBOL < c.length)
    (hfoa : find_or_add_symbol (begin_write r) sym = some (i, r2, t2))
    (hneed : (entryAt r2 i).data_offset = 0 ∨
             (entryAt r2 i).data_size < RequiredSize c.length)
    (hfits : ¬ s.size_ < s.next_data_offset_ + RequiredSize c.length)
    (hp : s.next_data_offset_ = 0) :
    WriteCandles s sym intv c n1 n2 =
      (.WRITE_FAILED,
       { s with next_data_offset_ := s.next_data_offset_ + RequiredSize c.length
                region_ := some (end_write r2 n2) },
       beginTrace ++ t2 ++ [⟨.zeroFill, s.next_data_offset_, RequiredSize c.length⟩] ++
         endTrace) := by
  simp only [WriteCandles, hr, if_neg hne, if_neg hlen, hfoa]
  rw [if_pos hneed]
  simp only [allocate_data_block, if_neg hfits]
  simp [hp]

/-! ### Anatomy of `find_or_add_symbol` -/

lemma foa_cases (r : SharedMemoryRegion) (sym : Bytes) (i : Nat)
    (r2 : SharedMemoryRegion) (t2 : List ByteWrite)
    (h : find_or_add_symbol r sym = some (i, r2, t2)) :
    (r.symbol_index.FindIdx sym = some i ∧ r2 = r ∧ t2 = []) ∨
    (r.symbol_index.FindIdx sym = none ∧
     r.symbol_index.entries.length < MAX_SYMBOLS ∧
     i = r.symbol_index.entries.length ∧
     r2 = { r with
            symbol_index :=
              ⟨r.symbol_index.entries ++ [{ emptyEntry with symbol := setSymbolBytes sym }]⟩
            header := { r.header with
                        symbol_count := r.symbol_index.entries.length + 1 } } ∧
     t2 = addTrace r.symbol_index.entries.length) := by
  cases hf : r.symbol_index.FindIdx sym with
  | some j =>
      rw [foa_found r sym j hf] at h
      simp only [Option.some.injEq, Prod.mk.injEq] at h
      obtain ⟨h1, h2, h3⟩ := h
      subst h1
      exact Or.inl ⟨rfl, h2.symm, h3.symm⟩
  | none =>
      by_cases hlt : r.symbol_index.count < MAX_SYMBOLS
      · rw [foa_fresh r sym hf hlt] at h
        simp only [Option.some.injEq, Prod.mk.injEq] at h
        obtain ⟨h1, h2, h3⟩ := h
        refine Or.inr ⟨rfl, hlt, h1.symm, h2.symm, ?_⟩
        rw [← h3]
      · rw [foa_full r sym hf (Nat.not_lt.mp hlt)] at h
        exact absurd h (by simp)

/-! ### Sequence arithmetic for the transaction protocol -/

lemma end_begin_seq (r : SharedMemoryRegion) (n2 : Nat) :
    (end_write (begin_write r) n2).header.sequence = u64 (r.header.sequence + 2) := by
  simp [end_write, begin_write, u64_u64_add, Nat.add_assoc]

lemma foa_seq (r : SharedMemoryRegion) (sym : Bytes) (i : Nat)
    (r2 : SharedMemoryRegion) (t2 : List ByteWrite)
    (h : find_or_add_symbol r sym = some (i, r2, t2)) :
    r2.header.sequence = r.header.sequence := by
  rcases foa_cases _ _ _ _ _ h with ⟨_, h2, _⟩ | ⟨_, _, _, h2, _⟩ <;> subst h2 <;> rfl

/-- Main case analysis: an initialized writer given a non-empty,
in-limit candle list always finishes the transaction (sequence `+2`,
region still mapped, size untouched) and returns one of the three §7
outcomes. -/
lemma wc_main_cases (s : SharedMemoryWriter) (r : SharedMemoryRegion)
    (hr : s.region_ = some r) (sym intv : Bytes) (c : List CandleData) (n1 n2 : Nat)
    (hne : c ≠ []) (hlen : ¬ MAX_CANDLES_PER_SYMBOL < c.length) :
    ((WriteCandles s sym intv c n1 n2).1 = .OK ∨
     (WriteCandles s sym intv c n1 n2).1 = .SYMBOL_LIMIT_EXCEEDED ∨
     (WriteCandles s sym intv c n1 n2).1 = .WRITE_FAILED) ∧
    seqOf (WriteCandles s sym intv c n1 n2).2.1 = u64 (r.header.sequence + 2) ∧
    (WriteCandles s sym intv c n1 n2).2.1.region_.isSome = true ∧
    (WriteCandles s sym intv c n1 n2).2.1.size_ = s.size_ := by
  cases hfoa : find_or_add_symbol (begin_write r) sym with
  | none =>
      rw [wc_sle s r hr sym intv c n1 n2 hne hlen hfoa]
      exact ⟨Or.inr (Or.inl rfl), by simp [seqOf, end_begin_seq], rfl, rfl⟩
  | some x =>
      obtain ⟨i, r2, t2⟩ := x
      have hseq2 : r2.header.sequence = u64 (r.header.sequence + 1) := by
        rw [foa_seq _ _ _ _ _ hfoa]
        rfl
      have hseq3 : ∀ n2', (end_write r2 n2').header.sequence = u64 (r.header.sequence + 2) := by
        intro n2'
        simp [end_write, hseq2, u64_u64_add, Nat.add_assoc]
      by_cases hneed : (entryAt r2 i).data_offset = 0 ∨
          (entryAt r2 i).data_size < RequiredSize c.length
      · by_cases hz : s.size_ < s.next_data_offset_ + RequiredSize c.length
        · rw [wc_alloc_fail s r r2 hr sym intv c n1 n2 i t2 hne hlen hfoa hneed hz]
          exact ⟨Or.inr (Or.inr rfl), by simp [seqOf, hseq3], rfl, rfl⟩
        · by_cases hp : s.next_data_offset_ = 0
          · rw [wc_alloc_zero s r r2 hr sym intv c n1 n2 i t2 hne hlen hfoa hneed hz hp]
            exact ⟨Or.inr (Or.inr rfl), by simp [seqOf, hseq3], rfl, rfl⟩
          · rw [wc_alloc_ok s r r2 hr sym intv c n1 n2 i t2 hne hlen hfoa hneed hz hp]
            refine ⟨Or.inl (by simp [finishWrite]), ?_, by simp [finishWrite], by simp [finishWrite]⟩
            simp [finishWrite, seqOf]
            simp [end_write, hseq2, u64_u64_add, Nat.add_assoc]
      · rw [wc_reuse s r r2 hr sym intv c n1 n2 i t2 hne hlen hfoa hneed]
        refine ⟨Or.inl (by simp [finishWrite]), ?_, by simp [finishWrite], by simp [finishWrite]⟩
        simp [finishWrite, seqOf]
        simp [end_write, hseq2, u64_u64_add, Nat.add_assoc]

/-! ### Generic list helpers -/

lemma getD_set_self {α : Type} (l : List α) (i : Nat) (e d : α) (h : i < l.length) :
    (l.set i e).getD i d = e := by
  induction l generalizing i with
  | nil => simp at h
  | cons x xs ih =>
      cases i with
      | zero => simp
      | succ j =>
          simp only [List.length_cons, Nat.succ_lt_succ_iff] at h
          simpa using ih j h

lemma getD_append_len {α : Type} (l : List α) (e d : α) :
    (l ++ [e]).getD l.length d = e := by
  induction l with
  | nil => simp
  | cons x xs ih => simp [ih]

lemma set_append_len {α : Type} (l : List α) (x y : α) :
    (l ++ [x]).set l.length y = l ++ [y] := by
  induction l with
  | nil => simp
  | cons a as ih => simp [ih]

lemma mem_getD {α : Type} (l : List α) (i : Nat) (d : α) (h : i < l.length) :
    l.getD i d ∈ l := by
  induction l generalizing i with
  | nil => simp at h
  | cons x xs ih =>
      cases i with
      | zero => simp
      | succ j =>
          simp only [List.length_cons, Nat.succ_lt_succ_iff] at h
          simpa using Or.inr (ih j h)

/-! ### Sequence bookkeeping for chains of calls -/

lemma wc_ok_seq (s : SharedMemoryWriter) (r : SharedMemoryRegion)
    (hr : s.region_ = some r) (sym intv : Bytes) (c : List CandleData) (n1 n2 : Nat)
    (hne : c ≠ []) (hok : (WriteCandles s sym intv c n1 n2).1 = .OK) :
    seqOf (WriteCandles s sym intv c n1 n2).2.1 = u64 (seqOf s + 2) ∧
    (WriteCandles s sym intv c n1 n2).2.1.region_.isSome = true := by
  by_cases hlen : MAX_CANDLES_PER_SYMBOL < c.length
  · rw [wc_toolong s r hr sym intv c n1 n2 hlen] at hok
    exact absurd hok (by simp)
  · have h := wc_main_cases s r hr sym intv c n1 n2 hne hlen
    refine ⟨?_, h.2.2.1⟩
    rw [h.2.1]
    simp [seqOf, hr]

lemma runWrites_seq (calls : List WriteCall) :
    ∀ (s : SharedMemoryWriter), s.region_.isSome = true →
    seqOf s < 2 ^ 64 →
    (∀ cl ∈ calls, cl.candles ≠ []) →
    (∀ e ∈ (runWrites s calls).2, e = .OK) →
    seqOf (runWrites s calls).1 = u64 (seqOf s + 2 * calls.length) ∧
    (runWrites s calls).1.region_.isSome = true := by
  induction calls with
  | nil =>
      intro s hs hlt _ _
      refine ⟨?_, hs⟩
      simp only [runWrites, List.length_nil, Nat.mul_zero, Nat.add_zero, u64]
      exact (Nat.mod_eq_of_lt hlt).symm
  | cons cl cls ih =>
      intro s hs hlt hne herr
      obtain ⟨r, hr⟩ := Option.isSome_iff_exists.mp hs
      have hok : (WriteCandles s cl.symbol cl.interval cl.candles cl.now1 cl.now2).1 = .OK := by
        have := herr (WriteCandles s cl.symbol cl.interval cl.candles cl.now1 cl.now2).1
        apply this
        simp [runWrites]
      have hcl : cl.candles ≠ [] := hne cl (by simp)
      have h1 := wc_ok_seq s r hr cl.symbol cl.interval cl.candles cl.now1 cl.now2 hcl hok
      have h2 := ih (WriteCandles s cl.symbol cl.interval cl.candles cl.now1 cl.now2).2.1
        h1.2 (by rw [h1.1]; exact Nat.mod_lt _ (by norm_num))
        (fun d hd => hne d (by simp [hd]))
        (fun e he => herr e (by simp [runWrites]; exact Or.inr he))
      have hout : (runWrites s (cl :: cls)).1 =
          (runWrites (WriteCandles s cl.symbol cl.interval cl.candles cl.now1 cl.now2).2.1 cls).1 := by
        simp [runWrites]
      refine ⟨?_, by rw [hout]; exact h2.2⟩
      rw [hout, h2.1, h1.1, u64_u64_add]
      have harith : seqOf s + 2 + 2 * cls.length = seqOf s + 2 * (cl :: cls).length := by
        simp [List.length_cons]
        ring
      rw [harith]

/-! ### Access to the invariant -/

lemma writerInv_some (s : SharedMemoryWriter) (r : SharedMemoryRegion)
    (hr : s.region_ = some r) (h : WriterInv s) :
    r.symbol_index.entries.length ≤ MAX_SYMBOLS ∧
    r.header.symbol_count = r.symbol_index.entries.length ∧
    DATA_SECTIONS_OFFSET ≤ s.next_data_offset_ ∧
    (s.next_data_offset_ = DATA_SECTIONS_OFFSET ∨ s.next_data_offset_ ≤ s.size_) ∧
    (∀ e ∈ r.symbol_index.entries, EntryOk s.next_data_offset_ e) := by
  unfold WriterInv at h
  rw [hr] at h
  exact h

lemma writerInv_build (s : SharedMemoryWriter) (r : SharedMemoryRegion)
    (hr : s.region_ = some r)
    (h1 : r.symbol_index.entries.length ≤ MAX_SYMBOLS)
    (h2 : r.header.symbol_count = r.symbol_index.entries.length)
    (h3 : DATA_SECTIONS_OFFSET ≤ s.next_data_offset_)
    (h4 : s.next_data_offset_ = DATA_SECTIONS_OFFSET ∨ s.next_data_offset_ ≤ s.size_)
    (h5 : ∀ e ∈ r.symbol_index.entries, EntryOk s.next_data_offset_ e) :
    WriterInv s := by
  unfold WriterInv
  rw [hr]
  exact ⟨h1, h2, h3, h4, h5⟩

lemma entryOk_mono (n n' : Nat) (e : SymbolIndexEntry) (h : n ≤ n')
    (he : EntryOk n e) : EntryOk n' e := by
  obtain ⟨ha, hb | hb⟩ := he
  · exact ⟨ha, Or.inl hb⟩
  · exact ⟨ha, Or.inr ⟨hb.1, hb.2.1, le_trans hb.2.2 h⟩⟩

/-! ### Anatomy of a successful `WriteCandles` call -/

/-- What a successful `WriteCandles` does to the directory, the data
section and the cursor, for a query name that is its own truncation.
The resolved slot `j` either pre-existed (first disjunct: in-place
reuse when the entry held a non-zero block big enough, otherwise a
fresh allocation repointing the entry) or was appended (second
disjunct: fresh allocation). -/
lemma wc_ok_anatomy (s : SharedMemoryWriter) (r : SharedMemoryRegion)
    (hr : s.region_ = some r) (sym intv : Bytes) (c : List CandleData) (n1 n2 : Nat)
    (hne : c ≠ []) (hsym : setSymbolBytes sym = sym) (hInv : WriterInv s)
    (hok : (WriteCandles s sym intv c n1 n2).1 = .OK) :
    ∃ j e',
      (WriteCandles s sym intv c n1 n2).2.1.region_.isSome = true ∧
      findSymbolIdx (entriesOf (WriteCandles s sym intv c n1 n2).2.1) sym = some j ∧
      j < (entriesOf (WriteCandles s sym intv c n1 n2).2.1).length ∧
      (entriesOf (WriteCandles s sym intv c n1 n2).2.1).getD j emptyEntry = e' ∧
      e'.symbol = sym ∧
      e'.candle_count = c.length ∧
      DATA_SECTIONS_OFFSET ≤ e'.data_offset ∧
      dataAt (WriteCandles s sym intv c n1 n2).2.1 e'.data_offset =
        some (mkBlock sym intv c) ∧
      (WriteCandles s sym intv c n1 n2).2.1.size_ = s.size_ ∧
      ((findSymbolIdx r.symbol_index.entries sym = some j ∧
        entriesOf (WriteCandles s sym intv c n1 n2).2.1 =
          r.symbol_index.entries.set j e' ∧
        symbolCountOf (WriteCandles s sym intv c n1 n2).2.1 = r.header.symbol_count ∧
        ((¬ ((r.symbol_index.entries.getD j emptyEntry).data_offset = 0 ∨
             (r.symbol_index.entries.getD j emptyEntry).data_size < RequiredSize c.length) ∧
          e'.data_offset = (r.symbol_index.entries.getD j emptyEntry).data_offset ∧
          e'.data_size = (r.symbol_index.entries.getD j emptyEntry).data_size ∧
          (WriteCandles s sym intv c n1 n2).2.1.next_data_offset_ = s.next_data_offset_) ∨
         (((r.symbol_index.entries.getD j emptyEntry).data_offset = 0 ∨
           (r.symbol_index.entries.getD j emptyEntry).data_size < RequiredSize c.length) ∧
          e'.data_offset = s.next_data_offset_ ∧
          e'.data_size = RequiredSize c.length ∧
          (WriteCandles s sym intv c n1 n2).2.1.next_data_offset_ =
            s.next_data_offset_ + RequiredSize c.length ∧
          s.next_data_offset_ + RequiredSize c.length ≤ s.size_))) ∨
       (findSymbolIdx r.symbol_index.entries sym = none ∧
        r.symbol_index.entries.length < MAX_SYMBOLS ∧
        j = r.symbol_index.entries.length ∧
        entriesOf (WriteCandles s sym intv c n1 n2).2.1 =
          r.symbol_index.entries ++ [e'] ∧
        symbolCountOf (WriteCandles s sym intv c n1 n2).2.1 = j + 1 ∧
        e'.data_offset = s.next_data_offset_ ∧
        e'.data_size = RequiredSize c.length ∧
        (WriteCandles s sym intv c n1 n2).2.1.next_data_offset_ =
          s.next_data_offset_ + RequiredSize c.length ∧
        s.next_data_offset_ + RequiredSize c.length ≤ s.size_)) := by
  by_cases hlen : MAX_CANDLES_PER_SYMBOL < c.length
  · rw [wc_toolong s r hr sym intv c n1 n2 hlen] at hok
    exact absurd hok (by simp)
  obtain ⟨hlenI, hscI, hnextI, hnextI2, hentI⟩ := writerInv_some s r hr hInv
  have hp : s.next_data_offset_ ≠ 0 := by
    intro h0
    rw [h0] at hnextI
    simp [DATA_SECTIONS_OFFSET] at hnextI
  cases hfoa : find_or_add_symbol (begin_write r) sym with
  | none =>
      rw [wc_sle s r hr sym intv c n1 n2 hne hlen hfoa] at hok
      exact absurd hok (by simp)
  | some x =>
      obtain ⟨i, r2, t2⟩ := x
      rcases foa_cases _ _ _ _ _ hfoa with ⟨hfind, hr2, ht2⟩ | ⟨hfind, hlt, hi, hr2, ht2⟩
      · -- the symbol was found at slot i
        subst hr2
        have hfind' : findSymbolIdx r.symbol_index.entries sym = some i := hfind
        obtain ⟨hilt, hisym⟩ := findSymbolIdx_some _ _ _ hfind'
        by_cases hneed : (entryAt (begin_write r) i).data_offset = 0 ∨
            (entryAt (begin_write r) i).data_size < RequiredSize c.length
        · by_cases hz : s.size_ < s.next_data_offset_ + RequiredSize c.length
          · rw [wc_alloc_fail s r (begin_write r) hr sym intv c n1 n2 i t2
                hne hlen hfoa hneed hz] at hok
            exact absurd hok (by simp)
          · -- realloc into a fresh block at the cursor
            have hE : entriesOf (WriteCandles s sym intv c n1 n2).2.1 =
                r.symbol_index.entries.set i
                  ⟨(r.symbol_index.entries.getD i emptyEntry).symbol,
                   s.next_data_offset_, RequiredSize c.length, c.length, n1⟩ := by
              rw [wc_alloc_ok s r (begin_write r) hr sym intv c n1 n2 i t2
                  hne hlen hfoa hneed hz hp]
              simp [finishWrite, entriesOf, end_write, begin_write, entryAt]
            have hSome : (WriteCandles s sym intv c n1 n2).2.1.region_.isSome = true := by
              rw [wc_alloc_ok s r (begin_write r) hr sym intv c n1 n2 i t2
                  hne hlen hfoa hneed hz hp]
              simp [finishWrite]
            have hSC : symbolCountOf (WriteCandles s sym intv c n1 n2).2.1 =
                r.header.symbol_count := by
              rw [wc_alloc_ok s r (begin_write r) hr sym intv c n1 n2 i t2
                  hne hlen hfoa hneed hz hp]
              simp [finishWrite, symbolCountOf, end_write, begin_write]
            have hNX : (WriteCandles s sym intv c n1 n2).2.1.next_data_offset_ =
                s.next_data_offset_ + RequiredSize c.length := by
              rw [wc_alloc_ok s r (begin_write r) hr sym intv c n1 n2 i t2
                  hne hlen hfoa hneed hz hp]
              simp [finishWrite]
            have hDA : dataAt (WriteCandles s sym intv c n1 n2).2.1 s.next_data_offset_ =
                some (mkBlock sym intv c) := by
              rw [wc_alloc_ok s r (begin_write r) hr sym intv c n1 n2 i t2
                  hne hlen hfoa hneed hz hp]
              simp [finishWrite, dataAt, end_write, begin_write]
            have hSZ : (WriteCandles s sym intv c n1 n2).2.1.size_ = s.size_ := by
              rw [wc_alloc_ok s r (begin_write r) hr sym intv c n1 n2 i t2
                  hne hlen hfoa hneed hz hp]
              simp [finishWrite]
            refine ⟨i, ⟨(r.symbol_index.entries.getD i emptyEntry).symbol,
                        s.next_data_offset_, RequiredSize c.length, c.length, n1⟩,
                    hSome, ?_, ?_, ?_, hisym, rfl, hnextI, hDA, hSZ,
                    Or.inl ⟨hfind', hE, hSC, Or.inr ⟨hneed, rfl, rfl, hNX,
                      Nat.not_lt.mp hz⟩⟩⟩
            · rw [hE, findSymbolIdx_set_same]
              · exact hfind'
              · rfl
            · rw [hE]
              simpa using hilt
            · rw [hE, getD_set_self _ _ _ _ hilt]
        · -- in-place reuse of the existing block
          have hmem : r.symbol_index.entries.getD i emptyEntry ∈ r.symbol_index.entries :=
            mem_getD _ _ _ hilt
          have hok0 := hentI _ hmem
          have hkeep := hneed
          push_neg at hkeep
          have hoff : DATA_SECTIONS_OFFSET ≤
              (r.symbol_index.entries.getD i emptyEntry).data_offset := by
            rcases hok0.2 with h0 | h0
            · exact absurd h0 hkeep.1
            · exact h0.1
          have hE : entriesOf (WriteCandles s sym intv c n1 n2).2.1 =
              r.symbol_index.entries.set i
                ⟨(r.symbol_index.entries.getD i emptyEntry).symbol,
                 (r.symbol_index.entries.getD i emptyEntry).data_offset,
                 (r.symbol_index.entries.getD i emptyEntry).data_size,
                 c.length, n1⟩ := by
            rw [wc_reuse s r (begin_write r) hr sym intv c n1 n2 i t2 hne hlen hfoa hneed]
            simp [finishWrite, entriesOf, end_write, begin_write, entryAt]
          have hSome : (WriteCandles s sym intv c n1 n2).2.1.region_.isSome = true := by
            rw [wc_reuse s r (begin_write r) hr sym intv c n1 n2 i t2 hne hlen hfoa hneed]
            simp [finishWrite]
          have hSC : symbolCountOf (WriteCandles s sym intv c n1 n2).2.1 =
              r.header.symbol_count := by
            rw [wc_reuse s r (begin_write r) hr sym intv c n1 n2 i t2 hne hlen hfoa hneed]
            simp [finishWrite, symbolCountOf, end_write, begin_write]
          have hNX : (WriteCandles s sym intv c n1 n2).2.1.next_data_offset_ =
              s.next_data_offset_ := by
            rw [wc_reuse s r (begin_write r) hr sym intv c n1 n2 i t2 hne hlen hfoa hneed]
            simp [finishWrite]
          have hDA : dataAt (WriteCandles s sym intv c n1 n2).2.1
              (r.symbol_index.entries.getD i emptyEntry).data_offset =
              some (mkBlock sym intv c) := by
            rw [wc_reuse s r (begin_write r) hr sym intv c n1 n2 i t2 hne hlen hfoa hneed]
            simp [finishWrite, dataAt, end_write, begin_write, entryAt]
          have hSZ : (WriteCandles s sym intv c n1 n2).2.1.size_ = s.size_ := by
            rw [wc_reuse s r (begin_write r) hr sym intv c n1 n2 i t2 hne hlen hfoa hneed]
            simp [finishWrite]
          refine ⟨i, ⟨(r.symbol_index.entries.getD i emptyEntry).symbol,
                      (r.symbol_index.entries.getD i emptyEntry).data_offset,
                      (r.symbol_index.entries.getD i emptyEntry).data_size,
                      c.length, n1⟩,
                  hSome, ?_, ?_, ?_, hisym, rfl, hoff, hDA, hSZ,
                  Or.inl ⟨hfind', hE, hSC, Or.inl ⟨hneed, rfl, rfl, hNX⟩⟩⟩
          · rw [hE, findSymbolIdx_set_same]
            · exact hfind'
            · rfl
          · rw [hE]
            simpa using hilt
          · rw [hE, getD_set_self _ _ _ _ hilt]
      · -- the symbol was appended at slot i = count
        subst hi
        subst hr2
        have hfind' : findSymbolIdx r.symbol_index.entries sym = none := hfind
        have hneed : (entryAt
              { begin_write r with
                symbol_index := ⟨(begin_write r).symbol_index.entries ++
                  [{ emptyEntry with symbol := setSymbolBytes sym }]⟩
                header := { (begin_write r).header with
                            symbol_count := (begin_write r).symbol_index.entries.length + 1 } }
              (begin_write r).symbol_index.entries.length).data_offset = 0 ∨
            (entryAt
              { begin_write r with
                symbol_index := ⟨(begin_write r).symbol_index.entries ++
                  [{ emptyEntry with symbol := setSymbolBytes sym }]⟩
                header := { (begin_write r).header with
                            symbol_count := (begin_write r).symbol_index.entries.length + 1 } }
              (begin_write r).symbol_index.entries.length).data_size <
              RequiredSize c.length := by
          refine Or.inl ?_
          simp only [entryAt]
          rw [getD_append_len]
          simp [emptyEntry]
        by_cases hz : s.size_ < s.next_data_offset_ + RequiredSize c.length
        · rw [wc_alloc_fail s r _ hr sym intv c n1 n2 _ t2 hne hlen hfoa hneed hz] at hok
          exact absurd hok (by simp)
        · have hE : entriesOf (WriteCandles s sym intv c n1 n2).2.1 =
              r.symbol_index.entries ++
                [⟨setSymbolBytes sym, s.next_data_offset_, RequiredSize c.length,
                  c.length, n1⟩] := by
            rw [wc_alloc_ok s r _ hr sym intv c n1 n2 _ t2 hne hlen hfoa hneed hz hp]
            simp [finishWrite, entriesOf, end_write, begin_write, entryAt,
                  getD_append_len, set_append_len, emptyEntry]
          have hSome : (WriteCandles s sym intv c n1 n2).2.1.region_.isSome = true := by
            rw [wc_alloc_ok s r _ hr sym intv c n1 n2 _ t2 hne hlen hfoa hneed hz hp]
            simp [finishWrite]
          have hSC : symbolCountOf (WriteCandles s sym intv c n1 n2).2.1 =
              r.symbol_index.entries.length + 1 := by
            rw [wc_alloc_ok s r _ hr sym intv c n1 n2 _ t2 hne hlen hfoa hneed hz hp]
            simp [finishWrite, symbolCountOf, end_write, begin_write]
          have hNX : (WriteCandles s sym intv c n1 n2).2.1.next_data_offset_ =
              s.next_data_offset_ + RequiredSize c.length := by
            rw [wc_alloc_ok s r _ hr sym intv c n1 n2 _ t2 hne hlen hfoa hneed hz hp]
            simp [finishWrite]
          have hDA : dataAt (WriteCandles s sym intv c n1 n2).2.1 s.next_data_offset_ =
              some (mkBlock sym intv c) := by
            rw [wc_alloc_ok s r _ hr sym intv c n1 n2 _ t2 hne hlen hfoa hneed hz hp]
            simp [finishWrite, dataAt, end_write, begin_write]
          have hSZ : (WriteCandles s sym intv c n1 n2).2.1.size_ = s.size_ := by
            rw [wc_alloc_ok s r _ hr sym intv c n1 n2 _ t2 hne hlen hfoa hneed hz hp]
            simp [finishWrite]
          refine ⟨r.symbol_index.entries.length,
                  ⟨setSymbolBytes sym, s.next_data_offset_, RequiredSize c.length,
                   c.length, n1⟩,
                  hSome, ?_, ?_, ?_, hsym, rfl, hnextI, hDA, hSZ,
                  Or.inr ⟨hfind', hlt, rfl, hE, hSC, rfl, rfl, hNX, Nat.not_lt.mp hz⟩⟩
          · rw [hE]
            exact findSymbolIdx_append_one _ _ _ hfind' hsym
          · rw [hE]
            simp
          · rw [hE, getD_append_len]

/-! ### The invariant survives successful writes -/

lemma entriesOf_eq (s : SharedMemoryWriter) (r : SharedMemoryRegion)
    (hr : s.region_ = some r) : entriesOf s = r.symbol_index.entries := by
  simp [entriesOf, hr]

lemma symbolCountOf_eq (s : SharedMemoryWriter) (r : SharedMemoryRegion)
    (hr : s.region_ = some r) : symbolCountOf s = r.header.symbol_count := by
  simp [symbolCountOf, hr]

lemma requiredSize_pos (n : Nat) : 0 < RequiredSize n := by
  simp [RequiredSize, ohlcvBlockHeaderSize]

lemma wc_ok_inv (s : SharedMemoryWriter) (r : SharedMemoryRegion)
    (hr : s.region_ = some r) (sym intv : Bytes) (c : List CandleData) (n1 n2 : Nat)
    (hne : c ≠ []) (hsym : setSymbolBytes sym = sym) (hInv : WriterInv s)
    (hok : (WriteCandles s sym intv c n1 n2).1 = .OK) :
    WriterInv (WriteCandles s sym intv c n1 n2).2.1 := by
  obtain ⟨hlenI, hscI, hnextI, hnextI2, hentI⟩ := writerInv_some s r hr hInv
  obtain ⟨j, e', hSome, hfindOut, hjlt, hgetD, hesym, hecnt, heoff, hDA, hSZ, hG⟩ :=
    wc_ok_anatomy s r hr sym intv c n1 n2 hne hsym hInv hok
  obtain ⟨r', hr'⟩ := Option.isSome_iff_exists.mp hSome
  have hent' : entriesOf (WriteCandles s sym intv c n1 n2).2.1 =
      r'.symbol_index.entries := entriesOf_eq _ _ hr'
  have hsc' : symbolCountOf (WriteCandles s sym intv c n1 n2).2.1 =
      r'.header.symbol_count := symbolCountOf_eq _ _ hr'
  have heIdem : e'.symbol = setSymbolBytes e'.symbol := by
    rw [hesym, hsym]
  have hreq := requiredSize_pos c.length
  rcases hG with ⟨hfound, hE, hSC, hsub⟩ | ⟨hnone, hlt, hj, hE, hSC, hOF, hDS, hNX, hBD⟩
  · -- resolved to a pre-existing slot j
    have hjold : j < r.symbol_index.entries.length := by
      rw [hE] at hjlt
      simpa using hjlt
    have hmem0 : r.symbol_index.entries.getD j emptyEntry ∈ r.symbol_index.entries :=
      mem_getD _ _ _ hjold
    have he0Ok := hentI _ hmem0
    rcases hsub with ⟨hkeep, hOF, hDS, hNX⟩ | ⟨hneed, hOF, hDS, hNX, hBD⟩
    · -- in-place reuse
      push_neg at hkeep
      have he0box : DATA_SECTIONS_OFFSET ≤
            (r.symbol_index.entries.getD j emptyEntry).data_offset ∧
          0 < (r.symbol_index.entries.getD j emptyEntry).data_size ∧
          (r.symbol_index.entries.getD j emptyEntry).data_offset +
            (r.symbol_index.entries.getD j emptyEntry).data_size ≤
            s.next_data_offset_ := by
        rcases he0Ok.2 with h0 | h0
        · exact absurd h0 hkeep.1
        · exact h0
      apply writerInv_build _ r' hr'
      · rw [← hent', hE]
        simpa using hlenI
      · rw [← hsc', hSC, ← hent', hE, hscI]
        simp
      · rw [hNX]
        exact hnextI
      · rw [hNX, hSZ]
        exact hnextI2
      · intro e he
        rw [← hent', hE] at he
        rcases List.mem_or_eq_of_mem_set he with hmem | heq
        · rw [hNX]
          exact hentI _ hmem
        · subst heq
          rw [hNX]
          refine ⟨heIdem, Or.inr ⟨heoff, ?_, ?_⟩⟩
          · rw [hDS]
            exact he0box.2.1
          · rw [hOF, hDS]
            exact he0box.2.2
    · -- repointed to a fresh block at the cursor
      apply writerInv_build _ r' hr'
      · rw [← hent', hE]
        simpa using hlenI
      · rw [← hsc', hSC, ← hent', hE, hscI]
        simp
      · rw [hNX]
        exact le_trans hnextI (Nat.le_add_right _ _)
      · rw [hNX, hSZ]
        exact Or.inr hBD
      · intro e he
        rw [← hent', hE] at he
        rcases List.mem_or_eq_of_mem_set he with hmem | heq
        · refine entryOk_mono _ _ _ ?_ (hentI _ hmem)
          rw [hNX]
          exact Nat.le_add_right _ _
        · subst heq
          refine ⟨heIdem, Or.inr ⟨heoff, ?_, ?_⟩⟩
          · rw [hDS]
            exact hreq
          · rw [hOF, hDS, hNX]
  · -- appended at slot j = count
    apply writerInv_build _ r' hr'
    · rw [← hent', hE]
      have hlt' := hlt
      simp only [MAX_SYMBOLS] at hlt' ⊢
      simp only [List.length_append, List.length_cons, List.length_nil]
      omega
    · rw [← hsc', hSC, ← hent', hE, hj]
      simp
    · rw [hNX]
      exact le_trans hnextI (Nat.le_add_right _ _)
    · rw [hNX, hSZ]
      exact Or.inr hBD
    · intro e he
      rw [← hent', hE] at he
      rcases List.mem_append.mp he with hmem | hmem
      · refine entryOk_mono _ _ _ ?_ (hentI _ hmem)
        rw [hNX]
        exact Nat.le_add_right _ _
      · have heq : e = e' := by simpa using hmem
        subst heq
        refine ⟨heIdem, Or.inr ⟨heoff, ?_, ?_⟩⟩
        · rw [hDS]
          exact hreq
        · rw [hOF, hDS, hNX]

/-! ### Ordering of the zero-fill against block population -/

lemma addTrace_no_payload (i : Nat) : ∀ w ∈ addTrace i, w.kind ≠ WriteKind.payload := by
  simp [addTrace]

lemma beginTrace_no_payload : ∀ w ∈ beginTrace, w.kind ≠ WriteKind.payload := by
  simp [beginTrace]

lemma endTrace_no_payload : ∀ w ∈ endTrace, w.kind ≠ WriteKind.payload := by
  simp [endTrace]

lemma endTrace_no_zero : ∀ w ∈ endTrace, w.kind ≠ WriteKind.zeroFill := by
  simp [endTrace]

lemma repointTrace_no_payload (i : Nat) :
    ∀ w ∈ repointTrace i, w.kind ≠ WriteKind.payload := by
  simp [repointTrace]

lemma blockTrace_no_zero (d i n : Nat) :
    ∀ w ∈ blockTrace d i n, w.kind ≠ WriteKind.zeroFill := by
  simp [blockTrace]

lemma zeroFill_no_payload (o l : Nat) :
    ∀ w ∈ ([⟨WriteKind.zeroFill, o, l⟩] : List ByteWrite),
      w.kind ≠ WriteKind.payload := by
  simp

lemma foa_trace_no_payload (r : SharedMemoryRegion) (sym : Bytes) (i : Nat)
    (r2 : SharedMemoryRegion) (t2 : List ByteWrite)
    (h : find_or_add_symbol r sym = some (i, r2, t2)) :
    ∀ w ∈ t2, w.kind ≠ WriteKind.payload := by
  rcases foa_cases _ _ _ _ _ h with ⟨_, _, ht⟩ | ⟨_, _, _, _, ht⟩
  · subst ht
    simp
  · subst ht
    exact addTrace_no_payload _

/-- In every `WriteCandles` trace the zero-fill of a freshly claimed
block precedes every store into a block: the trace splits into a
payload-free prefix and a zero-fill-free suffix. -/
lemma wc_trace_split (s : SharedMemoryWriter) (sym intv : Bytes)
    (c : List CandleData) (n1 n2 : Nat) :
    ∃ pre post, (WriteCandles s sym intv c n1 n2).2.2 = pre ++ post ∧
      (∀ w ∈ pre, w.kind ≠ WriteKind.payload) ∧
      (∀ w ∈ post, w.kind ≠ WriteKind.zeroFill) := by
  cases hr : s.region_ with
  | none =>
      refine ⟨[], [], ?_, by simp, by simp⟩
      simp [wc_notinit s hr]
  | some r =>
      by_cases hne : c = []
      · subst hne
        refine ⟨[], [], ?_, by simp, by simp⟩
        simp [wc_empty s r hr]
      · by_cases hlen : MAX_CANDLES_PER_SYMBOL < c.length
        · refine ⟨[], [], ?_, by simp, by simp⟩
          simp [wc_toolong s r hr sym intv c n1 n2 hlen]
        · cases hfoa : find_or_add_symbol (begin_write r) sym with
          | none =>
              refine ⟨beginTrace ++ endTrace, [], ?_, ?_, by simp⟩
              · simp [wc_sle s r hr sym intv c n1 n2 hne hlen hfoa]
              · rw [List.forall_mem_append]
                exact ⟨beginTrace_no_payload, endTrace_no_payload⟩
          | some x =>
              obtain ⟨i, r2, t2⟩ := x
              have ht2 := foa_trace_no_payload _ _ _ _ _ hfoa
              by_cases hneed : (entryAt r2 i).data_offset = 0 ∨
                  (entryAt r2 i).data_size < RequiredSize c.length
              · by_cases hz : s.size_ < s.next_data_offset_ + RequiredSize c.length
                · refine ⟨beginTrace ++ t2 ++ endTrace, [], ?_, ?_, by simp⟩
                  · simp [wc_alloc_fail s r r2 hr sym intv c n1 n2 i t2 hne hlen hfoa
                      hneed hz]
                  · rw [List.forall_mem_append, List.forall_mem_append]
                    exact ⟨⟨beginTrace_no_payload, ht2⟩, endTrace_no_payload⟩
                · by_cases hp : s.next_data_offset_ = 0
                  · refine ⟨beginTrace ++ t2 ++
                        [⟨WriteKind.zeroFill, s.next_data_offset_, RequiredSize c.length⟩] ++
                        endTrace, [], ?_, ?_, by simp⟩
                    · simp [wc_alloc_zero s r r2 hr sym intv c n1 n2 i t2 hne hlen hfoa
                        hneed hz hp]
                    · rw [List.forall_mem_append, List.forall_mem_append,
                          List.forall_mem_append]
                      exact ⟨⟨⟨beginTrace_no_payload, ht2⟩, zeroFill_no_payload _ _⟩,
                             endTrace_no_payload⟩
                  · refine ⟨beginTrace ++ t2 ++
                        [⟨WriteKind.zeroFill, s.next_data_offset_, RequiredSize c.length⟩] ++
                        repointTrace i,
                        blockTrace s.next_data_offset_ i c.length ++ endTrace, ?_, ?_, ?_⟩
                    · rw [wc_alloc_ok s r r2 hr sym intv c n1 n2 i t2 hne hlen hfoa
                        hneed hz hp]
                      simp [finishWrite, List.append_assoc]
                    · rw [List.forall_mem_append, List.forall_mem_append,
                          List.forall_mem_append]
                      exact ⟨⟨⟨beginTrace_no_payload, ht2⟩, zeroFill_no_payload _ _⟩,
                             repointTrace_no_payload i⟩
                    · rw [List.forall_mem_append]
                      exact ⟨blockTrace_no_zero _ _ _, endTrace_no_zero⟩
              · refine ⟨beginTrace ++ t2,
                    blockTrace (entryAt r2 i).data_offset i c.length ++ endTrace,
                    ?_, ?_, ?_⟩
                · rw [wc_reuse s r r2 hr sym intv c n1 n2 i t2 hne hlen hfoa hneed]
                  simp [finishWrite, List.append_assoc]
                · rw [List.forall_mem_append]
                  exact ⟨beginTrace_no_payload, ht2⟩
                · rw [List.forall_mem_append]
                  exact ⟨blockTrace_no_zero _ _ _, endTrace_no_zero⟩

/-! ### `Create` characterization -/

lemma create_ok (s : SharedMemoryWriter) (name : Bytes) (size pid now : Nat)
    (pf : PlatformResult) (h : (Create s name size pid now pf).1 = .OK) :
    (Create s name size pid now pf).2.region_ = some (initialize_region pid now) ∧
    (Create s name size pid now pf).2.next_data_offset_ = DATA_SECTIONS_OFFSET ∧
    (Create s name size pid now pf).2.size_ = size ∧
    (Create s name size pid now pf).2.name_ = name := by
  unfold Create at h ⊢
  by_cases hn : name = []
  · simp [hn] at h
  · by_cases hs : size < 4352 ∨ 1024 * 1024 * 1024 < size
    · simp [hn, hs] at h
    · cases pf
      · simp [hn, hs]
      · simp [hn, hs] at h
      · simp [hn, hs] at h

/-! ## Claim theorems -/

/-- C1. On an initialized writer given a non-empty candle list of at
most 100000 candles, starting from an even (quiescent) sequence, the
call returns OK, SymbolLimitExceeded or WriteFailed, and on every one
of these exit paths the header sequence was incremented exactly twice
(once by `begin_write`, once by the `end_write` that every path runs)
and is even when the call returns. -/
theorem C1_write_sequence_balanced (s : SharedMemoryWriter)
    (sym intv : Bytes) (c : List CandleData) (n1 n2 : Nat)
    (hinit : s.region_.isSome = true) (hne : c ≠ [])
    (hlen : c.length ≤ MAX_CANDLES_PER_SYMBOL) (hev : seqOf s % 2 = 0) :
    ((WriteCandles s sym intv c n1 n2).1 = .OK ∨
     (WriteCandles s sym intv c n1 n2).1 = .SYMBOL_LIMIT_EXCEEDED ∨
     (WriteCandles s sym intv c n1 n2).1 = .WRITE_FAILED) ∧
    seqOf (WriteCandles s sym intv c n1 n2).2.1 = u64 (seqOf s + 2) ∧
    seqOf (WriteCandles s sym intv c n1 n2).2.1 % 2 = 0 := by
  obtain ⟨r, hr⟩ := Option.isSome_iff_exists.mp hinit
  have h := wc_main_cases s r hr sym intv c n1 n2 hne (Nat.not_lt.mpr hlen)
  have hsq : seqOf s = r.header.sequence := by
    simp [seqOf, hr]
  refine ⟨h.1, ?_, ?_⟩
  · rw [h.2.1, hsq]
  · rw [h.2.1, u64_mod_two]
    rw [hsq] at hev
    omega

theorem C1_write_sequence_balanced_witness :
    ((Create initialWriter [120] 1048576 1 0 PlatformResult.ok).2.region_.isSome = true ∧
     ([⟨1, 2, 3, 4, 5, 6⟩] : List CandleData) ≠ [] ∧
     ([⟨1, 2, 3, 4, 5, 6⟩] : List CandleData).length ≤ MAX_CANDLES_PER_SYMBOL ∧
     seqOf (Create initialWriter [120] 1048576 1 0 PlatformResult.ok).2 % 2 = 0) ∧
    (((WriteCandles (Create initialWriter [120] 1048576 1 0 PlatformResult.ok).2
        [66] [49] [⟨1, 2, 3, 4, 5, 6⟩] 3 4).1 = .OK ∨
      (WriteCandles (Create initialWriter [120] 1048576 1 0 PlatformResult.ok).2
        [66] [49] [⟨1, 2, 3, 4, 5, 6⟩] 3 4).1 = .SYMBOL_LIMIT_EXCEEDED ∨
      (WriteCandles (Create initialWriter [120] 1048576 1 0 PlatformResult.ok).2
        [66] [49] [⟨1, 2, 3, 4, 5, 6⟩] 3 4).1 = .WRITE_FAILED) ∧
     seqOf (WriteCandles (Create initialWriter [120] 1048576 1 0 PlatformResult.ok).2
        [66] [49] [⟨1, 2, 3, 4, 5, 6⟩] 3 4).2.1 =
       u64 (seqOf (Create initialWriter [120] 1048576 1 0 PlatformResult.ok).2 + 2) ∧
     seqOf (WriteCandles (Create initialWriter [120] 1048576 1 0 PlatformResult.ok).2
        [66] [49] [⟨1, 2, 3, 4, 5, 6⟩] 3 4).2.1 % 2 = 0) :=
  ⟨⟨by decide, by decide, by decide, by decide⟩,
   C1_write_sequence_balanced (Create initialWriter [120] 1048576 1 0 PlatformResult.ok).2
     [66] [49] [⟨1, 2, 3, 4, 5, 6⟩] 3 4 (by decide) (by decide) (by decide) (by decide)⟩

/-- C3. The code evaluated at the failing input: `Create` accepts the
minimum size 4352 (it is inside the validated range), yet the region
initialization footprint contains the memset of the 256 symbol-index
entries, whose last byte (offset 264 + 10240 = 10504) lies outside the
4352-byte region — the stale 4352 minimum contradicts the 16 KiB index
layout (`DATA_SECTIONS_OFFSET = 16640`) of the same header. -/
theorem C3_min_size_init_overflow :
    (Create initialWriter [120] 4352 1 0 PlatformResult.ok).1 = WriterError.OK ∧
    (Create initialWriter [120] 4352 1 0 PlatformResult.ok).2.size_ = 4352 ∧
    ∃ w ∈ initFootprint,
      (Create initialWriter [120] 4352 1 0 PlatformResult.ok).2.size_ <
        w.offset + w.len := by
  decide

/-- C4 counterexample: a single `WriteCandles` call with an empty
candle list returns OK, yet the sequence stays 0 ≠ 2·1, because the
empty-list no-op returns before `begin_write`. -/
theorem C4_empty_call_counterexample :
    (∀ e ∈ (runWrites (Create initialWriter [120] 1048576 1 0 PlatformResult.ok).2
        [⟨[66], [49], [], 0, 0⟩]).2, e = WriterError.OK) ∧
    seqOf (runWrites (Create initialWriter [120] 1048576 1 0 PlatformResult.ok).2
        [⟨[66], [49], [], 0, 0⟩]).1 = 0 ∧
    ([(⟨[66], [49], [], 0, 0⟩ : WriteCall)].length = 1 ∧ (0 : Nat) ≠ 2 * 1) := by
  decide

/-- C4 (amended). Starting from a freshly created region, after N
`WriteCandles` calls with non-empty candle lists that all return OK —
for every choice of arguments on which they succeed — the sequence
equals 2N (as long as 2N does not wrap the 64-bit counter) and is
even. -/
theorem C4_sequence_equals_twice_writes (s : SharedMemoryWriter) (name : Bytes)
    (size pid now : Nat) (pf : PlatformResult) (calls : List WriteCall)
    (hcr : (Create s name size pid now pf).1 = .OK)
    (hne : ∀ cl ∈ calls, cl.candles ≠ [])
    (hok : ∀ e ∈ (runWrites (Create s name size pid now pf).2 calls).2,
      e = WriterError.OK)
    (hbound : 2 * calls.length < 2 ^ 64) :
    seqOf (runWrites (Create s name size pid now pf).2 calls).1 = 2 * calls.length ∧
    seqOf (runWrites (Create s name size pid now pf).2 calls).1 % 2 = 0 := by
  obtain ⟨hreg, hnext, hsz, hnm⟩ := create_ok s name size pid now pf hcr
  have hsome : (Create s name size pid now pf).2.region_.isSome = true := by
    rw [hreg]
    rfl
  have hseq0 : seqOf (Create s name size pid now pf).2 = 0 := by
    simp [seqOf, hreg, initialize_region]
  have h := runWrites_seq calls _ hsome (by rw [hseq0]; norm_num) hne hok
  rw [h.1, hseq0, Nat.zero_add]
  constructor
  · rw [u64]
    exact Nat.mod_eq_of_lt hbound
  · rw [u64_mod_two]
    omega

theorem C4_sequence_equals_twice_writes_witness :
    ((Create initialWriter [120] 1048576 1 0 PlatformResult.ok).1 = .OK ∧
     (∀ cl ∈ [(⟨[66], [49], [⟨1, 2, 3, 4, 5, 6⟩], 0, 0⟩ : WriteCall),
              ⟨[66], [49], [⟨7, 2, 3, 4, 5, 6⟩], 1, 2⟩], cl.candles ≠ []) ∧
     (∀ e ∈ (runWrites (Create initialWriter [120] 1048576 1 0 PlatformResult.ok).2
        [(⟨[66], [49], [⟨1, 2, 3, 4, 5, 6⟩], 0, 0⟩ : WriteCall),
         ⟨[66], [49], [⟨7, 2, 3, 4, 5, 6⟩], 1, 2⟩]).2, e = WriterError.OK) ∧
     2 * ([(⟨[66], [49], [⟨1, 2, 3, 4, 5, 6⟩], 0, 0⟩ : WriteCall),
           ⟨[66], [49], [⟨7, 2, 3, 4, 5, 6⟩], 1, 2⟩]).length < 2 ^ 64) ∧
    (seqOf (runWrites (Create initialWriter [120] 1048576 1 0 PlatformResult.ok).2
        [(⟨[66], [49], [⟨1, 2, 3, 4, 5, 6⟩], 0, 0⟩ : WriteCall),
         ⟨[66], [49], [⟨7, 2, 3, 4, 5, 6⟩], 1, 2⟩]).1 =
       2 * ([(⟨[66], [49], [⟨1, 2, 3, 4, 5, 6⟩], 0, 0⟩ : WriteCall),
             ⟨[66], [49], [⟨7, 2, 3, 4, 5, 6⟩], 1, 2⟩]).length ∧
     seqOf (runWrites (Create initialWriter [120] 1048576 1 0 PlatformResult.ok).2
        [(⟨[66], [49], [⟨1, 2, 3, 4, 5, 6⟩], 0, 0⟩ : WriteCall),
         ⟨[66], [49], [⟨7, 2, 3, 4, 5, 6⟩], 1, 2⟩]).1 % 2 = 0) :=
  ⟨⟨by decide, by decide, by decide, by decide⟩,
   C4_sequence_equals_twice_writes initialWriter [120] 1048576 1 0 PlatformResult.ok
     [⟨[66], [49], [⟨1, 2, 3, 4, 5, 6⟩], 0, 0⟩, ⟨[66], [49], [⟨7, 2, 3, 4, 5, 6⟩], 1, 2⟩]
     (by decide) (by decide) (by decide) (by decide)⟩

/-- C8. On an initialized writer an empty candle list returns OK and a
list longer than 100000 candles returns CandleLimitExceeded; both
calls return the state unchanged (the very same writer value: header,
index, cursor) and an empty byte-write trace (no region byte is
touched). -/
theorem C8_empty_and_overlimit_noop (s : SharedMemoryWriter) (sym intv : Bytes)
    (c : List CandleData) (n1 n2 n3 n4 : Nat)
    (hinit : s.region_.isSome = true) (hover : MAX_CANDLES_PER_SYMBOL < c.length) :
    WriteCandles s sym intv [] n1 n2 = (.OK, s, []) ∧
    WriteCandles s sym intv c n3 n4 = (.CANDLE_LIMIT_EXCEEDED, s, []) := by
  obtain ⟨r, hr⟩ := Option.isSome_iff_exists.mp hinit
  exact ⟨wc_empty s r hr sym intv n1 n2, wc_toolong s r hr sym intv c n3 n4 hover⟩

theorem C8_empty_and_overlimit_noop_witness :
    ((Create initialWriter [120] 1048576 1 0 PlatformResult.ok).2.region_.isSome = true ∧
     MAX_CANDLES_PER_SYMBOL <
       (List.replicate 100001 (⟨0, 0, 0, 0, 0, 0⟩ : CandleData)).length) ∧
    (WriteCandles (Create initialWriter [120] 1048576 1 0 PlatformResult.ok).2
        [66] [49] [] 0 0 =
      (.OK, (Create initialWriter [120] 1048576 1 0 PlatformResult.ok).2, []) ∧
     WriteCandles (Create initialWriter [120] 1048576 1 0 PlatformResult.ok).2
        [66] [49] (List.replicate 100001 ⟨0, 0, 0, 0, 0, 0⟩) 0 0 =
      (.CANDLE_LIMIT_EXCEEDED,
       (Create initialWriter [120] 1048576 1 0 PlatformResult.ok).2, [])) :=
  ⟨⟨by decide, by rw [List.length_replicate]; decide⟩,
   C8_empty_and_overlimit_noop (Create initialWriter [120] 1048576 1 0 PlatformResult.ok).2
     [66] [49] (List.replicate 100001 ⟨0, 0, 0, 0, 0, 0⟩) 0 0 0 0
     (by decide) (by rw [List.length_replicate]; decide)⟩


/-- C9 counterexample: at the concrete input (empty name, size 100),
the size lies outside [4352, 1 GiB] yet `Create` returns InvalidName,
not InvalidSize — the name check takes precedence, so "InvalidSize
exactly when the size is out of range" is false as stated. -/
theorem C9_name_precedence_counterexample :
    (Create initialWriter [] 100 1 0 PlatformResult.ok).1 = WriterError.INVALID_NAME ∧
    (100 : Nat) < 4352 ∧
    WriterError.INVALID_NAME ≠ WriterError.INVALID_SIZE := by
  decide

/-- C9 (amended). `Create` returns InvalidName exactly when the name
is empty, InvalidSize exactly when the name is non-empty and the size
lies outside [4352 B, 1 GiB] (the name check takes precedence), and on
either validation failure the writer is returned unchanged — nothing
is created or mapped, and a NotInitialized writer stays
NotInitialized.  In particular `create(name, 100)` with a non-empty
name returns InvalidSize. -/
theorem C9_create_validation (s : SharedMemoryWriter) (name : Bytes)
    (size pid now : Nat) (pf : PlatformResult) :
    ((Create s name size pid now pf).1 = .INVALID_NAME ↔ name = []) ∧
    ((Create s name size pid now pf).1 = .INVALID_SIZE ↔
      name ≠ [] ∧ (size < 4352 ∨ 1024 * 1024 * 1024 < size)) ∧
    ((name = [] ∨ size < 4352 ∨ 1024 * 1024 * 1024 < size) →
      (Create s name size pid now pf).2 = s) := by
  unfold Create
  by_cases hn : name = []
  · simp [hn]
  · by_cases hs : size < 4352 ∨ 1024 * 1024 * 1024 < size
    · simp [hn, hs]
    · cases pf <;> simp [hn, hs]

theorem C9_create_validation_witness :
    ((Create initialWriter [120] 100 1 0 PlatformResult.ok).1 =
       WriterError.INVALID_SIZE) ∧
    (Create initialWriter [120] 100 1 0 PlatformResult.ok).2 = initialWriter :=
  ⟨(C9_create_validation initialWriter [120] 100 1 0 PlatformResult.ok).2.1.mpr
     (by decide),
   (C9_create_validation initialWriter [120] 100 1 0 PlatformResult.ok).2.2
     (by decide)⟩

/-- C10. `GetStats` on a writer that is not initialized (including
right after `Close`) returns the all-zero statistics record without
touching any region state; immediately after a successful `Create` it
returns zero symbols, zero candles, zero writes, and `memory_used`
equal to the data-section start offset 16640 (the header timestamp is
the creation time). -/
theorem C10_getstats_zero_and_fresh (s : SharedMemoryWriter) (name : Bytes)
    (size pid now : Nat) (pf : PlatformResult) :
    (s.region_.isSome = false → GetStats s = ⟨0, 0, 0, 0, 0⟩) ∧
    GetStats (Close s) = ⟨0, 0, 0, 0, 0⟩ ∧
    ((Create s name size pid now pf).1 = .OK →
      GetStats (Create s name size pid now pf).2 =
        ⟨0, 0, DATA_SECTIONS_OFFSET, now, 0⟩) := by
  refine ⟨?_, ?_, ?_⟩
  · intro h
    have hnone : s.region_ = none := by
      cases hcase : s.region_ with
      | none => rfl
      | some r =>
          rw [hcase] at h
          simp at h
    simp [GetStats, hnone]
  · simp [GetStats, Close]
  · intro h
    obtain ⟨hreg, hnext, _, _⟩ := create_ok s name size pid now pf h
    simp [GetStats, hreg, hnext, initialize_region, SymbolIndex.count]

theorem C10_getstats_zero_and_fresh_witness :
    (initialWriter.region_.isSome = false ∧
     (Create initialWriter [120] 1048576 1 0 PlatformResult.ok).1 = .OK) ∧
    (GetStats initialWriter = ⟨0, 0, 0, 0, 0⟩ ∧
     GetStats (Close initialWriter) = ⟨0, 0, 0, 0, 0⟩ ∧
     GetStats (Create initialWriter [120] 1048576 1 0 PlatformResult.ok).2 =
       ⟨0, 0, DATA_SECTIONS_OFFSET, 0, 0⟩) :=
  ⟨⟨by decide, by decide⟩,
   (C10_getstats_zero_and_fresh initialWriter [120] 1048576 1 0
      PlatformResult.ok).1 (by decide),
   (C10_getstats_zero_and_fresh initialWriter [120] 1048576 1 0
      PlatformResult.ok).2.1,
   (C10_getstats_zero_and_fresh initialWriter [120] 1048576 1 0
      PlatformResult.ok).2.2 (by decide)⟩

/-- C7. When the index already holds 256 entries whose stored names all
differ from the truncation of the new symbol, a `WriteCandles` call for
that 257th distinct symbol returns SymbolLimitExceeded, the entry array
is unchanged (nothing added or overwritten), and both the active entry
count and `header.symbol_count` remain 256. -/
theorem C7_symbol_limit_exceeded (s : SharedMemoryWriter) (sym intv : Bytes)
    (c : List CandleData) (n1 n2 : Nat)
    (hinit : s.region_.isSome = true) (hInv : WriterInv s)
    (hfull : indexCountOf s = 256) (hsc : symbolCountOf s = 256)
    (hdistinct : ∀ e ∈ entriesOf s, e.symbol ≠ setSymbolBytes sym)
    (hne : c ≠ []) (hlen : c.length ≤ MAX_CANDLES_PER_SYMBOL) :
    (WriteCandles s sym intv c n1 n2).1 = .SYMBOL_LIMIT_EXCEEDED ∧
    entriesOf (WriteCandles s sym intv c n1 n2).2.1 = entriesOf s ∧
    indexCountOf (WriteCandles s sym intv c n1 n2).2.1 = 256 ∧
    symbolCountOf (WriteCandles s sym intv c n1 n2).2.1 = 256 := by
  obtain ⟨r, hr⟩ := Option.isSome_iff_exists.mp hinit
  have hstored : ∀ e ∈ r.symbol_index.entries, e.symbol = setSymbolBytes e.symbol :=
    fun e he => ((writerInv_some s r hr hInv).2.2.2.2 e he).1
  have hdis : ∀ e ∈ r.symbol_index.entries, e.symbol ≠ setSymbolBytes sym := by
    intro e he
    have := hdistinct e
    rw [entriesOf_eq s r hr] at this
    exact this he
  have hnone : (begin_write r).symbol_index.FindIdx sym = none := by
    show findSymbolIdx r.symbol_index.entries sym = none
    rw [findSymbolIdx_none_iff]
    intro e he heq
    have h1 := hstored e he
    rw [heq] at h1
    exact hdis e he (heq.trans h1)
  have hfull' : MAX_SYMBOLS ≤ (begin_write r).symbol_index.count := by
    show MAX_SYMBOLS ≤ r.symbol_index.entries.length
    have h256 : (entriesOf s).length = 256 := hfull
    rw [entriesOf_eq s r hr] at h256
    rw [h256]
    decide
  have hfoa := foa_full (begin_write r) sym hnone hfull'
  rw [wc_sle s r hr sym intv c n1 n2 hne (Nat.not_lt.mpr hlen) hfoa]
  have hE : entriesOf
      ({ s with region_ := some (end_write (begin_write r) n2) } :
        SharedMemoryWriter) = entriesOf s := by
    simp [entriesOf, end_write, begin_write, hr]
  refine ⟨rfl, hE, ?_, ?_⟩
  · show (entriesOf _).length = 256
    rw [hE]
    exact hfull
  · show symbolCountOf _ = 256
    have : symbolCountOf
        ({ s with region_ := some (end_write (begin_write r) n2) } :
          SharedMemoryWriter) = r.header.symbol_count := by
      simp [symbolCountOf, end_write, begin_write]
    rw [this, ← symbolCountOf_eq s r hr]
    exact hsc

set_option maxRecDepth 100000 in
theorem C7_symbol_limit_exceeded_witness :
    (({ name_ := [120], size_ := 1048576,
        region_ := some
          { header := ⟨MAGIC, VERSION, 1, 0, 0, 0, 256, 0, 0⟩,
            symbol_index := ⟨(List.range 256).map (fun k => ⟨[k + 1], 0, 0, 0, 0⟩)⟩,
            data_sections := fun _ => none },
        next_data_offset_ := DATA_SECTIONS_OFFSET } :
        SharedMemoryWriter).region_.isSome = true ∧
     WriterInv
       { name_ := [120], size_ := 1048576,
         region_ := some
           { header := ⟨MAGIC, VERSION, 1, 0, 0, 0, 256, 0, 0⟩,
             symbol_index := ⟨(List.range 256).map (fun k => ⟨[k + 1], 0, 0, 0, 0⟩)⟩,
             data_sections := fun _ => none },
         next_data_offset_ := DATA_SECTIONS_OFFSET } ∧
     indexCountOf
       { name_ := [120], size_ := 1048576,
         region_ := some
           { header := ⟨MAGIC, VERSION, 1, 0, 0, 0, 256, 0, 0⟩,
             symbol_index := ⟨(List.range 256).map (fun k => ⟨[k + 1], 0, 0, 0, 0⟩)⟩,
             data_sections := fun _ => none },
         next_data_offset_ := DATA_SECTIONS_OFFSET } = 256 ∧
     symbolCountOf
       { name_ := [120], size_ := 1048576,
         region_ := some
           { header := ⟨MAGIC, VERSION, 1, 0, 0, 0, 256, 0, 0⟩,
             symbol_index := ⟨(List.range 256).map (fun k => ⟨[k + 1], 0, 0, 0, 0⟩)⟩,
             data_sections := fun _ => none },
         next_data_offset_ := DATA_SECTIONS_OFFSET } = 256 ∧
     (∀ e ∈ entriesOf
       { name_ := [120], size_ := 1048576,
         region_ := some
           { header := ⟨MAGIC, VERSION, 1, 0, 0, 0, 256, 0, 0⟩,
             symbol_index := ⟨(List.range 256).map (fun k => ⟨[k + 1], 0, 0, 0, 0⟩)⟩,
             data_sections := fun _ => none },
         next_data_offset_ := DATA_SECTIONS_OFFSET },
       e.symbol ≠ setSymbolBytes [1, 1]) ∧
     ([⟨1, 2, 3, 4, 5, 6⟩] : List CandleData) ≠ [] ∧
     ([⟨1, 2, 3, 4, 5, 6⟩] : List CandleData).length ≤ MAX_CANDLES_PER_SYMBOL) ∧
    ((WriteCandles
       { name_ := [120], size_ := 1048576,
         region_ := some
           { header := ⟨MAGIC, VERSION, 1, 0, 0, 0, 256, 0, 0⟩,
             symbol_index := ⟨(List.range 256).map (fun k => ⟨[k + 1], 0, 0, 0, 0⟩)⟩,
             data_sections := fun _ => none },
         next_data_offset_ := DATA_SECTIONS_OFFSET }
       [1, 1] [49] [⟨1, 2, 3, 4, 5, 6⟩] 0 0).1 = .SYMBOL_LIMIT_EXCEEDED ∧
     entriesOf (WriteCandles
       { name_ := [120], size_ := 1048576,
         region_ := some
           { header := ⟨MAGIC, VERSION, 1, 0, 0, 0, 256, 0, 0⟩,
             symbol_index := ⟨(List.range 256).map (fun k => ⟨[k + 1], 0, 0, 0, 0⟩)⟩,
             data_sections := fun _ => none },
         next_data_offset_ := DATA_SECTIONS_OFFSET }
       [1, 1] [49] [⟨1, 2, 3, 4, 5, 6⟩] 0 0).2.1 = entriesOf
       { name_ := [120], size_ := 1048576,
         region_ := some
           { header := ⟨MAGIC, VERSION, 1, 0, 0, 0, 256, 0, 0⟩,
             symbol_index := ⟨(List.range 256).map (fun k => ⟨[k + 1], 0, 0, 0, 0⟩)⟩,
             data_sections := fun _ => none },
         next_data_offset_ := DATA_SECTIONS_OFFSET } ∧
     indexCountOf (WriteCandles
       { name_ := [120], size_ := 1048576,
         region_ := some
           { header := ⟨MAGIC, VERSION, 1, 0, 0, 0, 256, 0, 0⟩,
             symbol_index := ⟨(List.range 256).map (fun k => ⟨[k + 1], 0, 0, 0, 0⟩)⟩,
             data_sections := fun _ => none },
         next_data_offset_ := DATA_SECTIONS_OFFSET }
       [1, 1] [49] [⟨1, 2, 3, 4, 5, 6⟩] 0 0).2.1 = 256 ∧
     symbolCountOf (WriteCandles
       { name_ := [120], size_ := 1048576,
         region_ := some
           { header := ⟨MAGIC, VERSION, 1, 0, 0, 0, 256, 0, 0⟩,
             symbol_index := ⟨(List.range 256).map (fun k => ⟨[k + 1], 0, 0, 0, 0⟩)⟩,
             data_sections := fun _ => none },
         next_data_offset_ := DATA_SECTIONS_OFFSET }
       [1, 1] [49] [⟨1, 2, 3, 4, 5, 6⟩] 0 0).2.1 = 256) :=
  ⟨⟨by decide, by decide, by decide, by decide, by decide, by decide, by decide⟩,
   C7_symbol_limit_exceeded
     { name_ := [120], size_ := 1048576,
       region_ := some
         { header := ⟨MAGIC, VERSION, 1, 0, 0, 0, 256, 0, 0⟩,
           symbol_index := ⟨(List.range 256).map (fun k => ⟨[k + 1], 0, 0, 0, 0⟩)⟩,
           data_sections := fun _ => none },
       next_data_offset_ := DATA_SECTIONS_OFFSET }
     [1, 1] [49] [⟨1, 2, 3, 4, 5, 6⟩] 0 0
     (by decide) (by decide) (by decide) (by decide) (by decide) (by decide)
     (by decide)⟩

/-- C2 counterexample: a 16-byte symbol name written twice creates a
second index entry.  `Find` compares the stored 15-byte truncation with
the full 16-byte query, which never match, so the second call appends
another entry: the active entry count and `symbol_count` rise from 1
to 2, contradicting the claim for names longer than 15 bytes. -/
theorem C2_long_name_duplicate_entry :
    (WriteCandles (Create initialWriter [120] 1048576 1 0 PlatformResult.ok).2
        (List.replicate 16 65) [49] [⟨1, 2, 3, 4, 5, 6⟩] 0 0).1 = WriterError.OK ∧
    indexCountOf (WriteCandles (Create initialWriter [120] 1048576 1 0
        PlatformResult.ok).2
        (List.replicate 16 65) [49] [⟨1, 2, 3, 4, 5, 6⟩] 0 0).2.1 = 1 ∧
    (WriteCandles (WriteCandles (Create initialWriter [120] 1048576 1 0
          PlatformResult.ok).2
        (List.replicate 16 65) [49] [⟨1, 2, 3, 4, 5, 6⟩] 0 0).2.1
        (List.replicate 16 65) [49] [⟨2, 2, 3, 4, 5, 6⟩] 0 0).1 = WriterError.OK ∧
    indexCountOf (WriteCandles (WriteCandles (Create initialWriter [120] 1048576 1 0
          PlatformResult.ok).2
        (List.replicate 16 65) [49] [⟨1, 2, 3, 4, 5, 6⟩] 0 0).2.1
        (List.replicate 16 65) [49] [⟨2, 2, 3, 4, 5, 6⟩] 0 0).2.1 = 2 ∧
    symbolCountOf (WriteCandles (WriteCandles (Create initialWriter [120] 1048576 1 0
          PlatformResult.ok).2
        (List.replicate 16 65) [49] [⟨1, 2, 3, 4, 5, 6⟩] 0 0).2.1
        (List.replicate 16 65) [49] [⟨2, 2, 3, 4, 5, 6⟩] 0 0).2.1 = 2 := by
  decide

/-- C2 (amended).  For every name that equals its own stored truncation
(at most 15 bytes, no NUL byte), a second `WriteCandles` for the same
name resolves to the slot the first call used: the active entry count
and `header.symbol_count` do not change, and the same slot is updated
in place with the new candle count.  (For longer names each call
appends a fresh entry — see the counterexample.) -/
theorem C2_second_write_resolves_same_entry (s : SharedMemoryWriter)
    (sym i1 i2 : Bytes) (c1 c2 : List CandleData) (a b a2 b2 : Nat)
    (hinit : s.region_.isSome = true) (hInv : WriterInv s)
    (hsym : setSymbolBytes sym = sym)
    (hne1 : c1 ≠ []) (hne2 : c2 ≠ [])
    (h1 : (WriteCandles s sym i1 c1 a b).1 = .OK)
    (h2 : (WriteCandles (WriteCandles s sym i1 c1 a b).2.1 sym i2 c2 a2 b2).1 = .OK) :
    ∃ j e2,
      findSymbolIdx (entriesOf (WriteCandles s sym i1 c1 a b).2.1) sym = some j ∧
      findSymbolIdx (entriesOf (WriteCandles (WriteCandles s sym i1 c1 a b).2.1
        sym i2 c2 a2 b2).2.1) sym = some j ∧
      indexCountOf (WriteCandles (WriteCandles s sym i1 c1 a b).2.1
        sym i2 c2 a2 b2).2.1 = indexCountOf (WriteCandles s sym i1 c1 a b).2.1 ∧
      symbolCountOf (WriteCandles (WriteCandles s sym i1 c1 a b).2.1
        sym i2 c2 a2 b2).2.1 = symbolCountOf (WriteCandles s sym i1 c1 a b).2.1 ∧
      entriesOf (WriteCandles (WriteCandles s sym i1 c1 a b).2.1
        sym i2 c2 a2 b2).2.1 =
        (entriesOf (WriteCandles s sym i1 c1 a b).2.1).set j e2 ∧
      e2.symbol = sym ∧
      e2.candle_count = c2.length := by
  obtain ⟨r, hr⟩ := Option.isSome_iff_exists.mp hinit
  obtain ⟨j, e1, hSome1, hfind1, hjlt1, hget1, hesym1, hecnt1, heoff1, hDA1, hSZ1, hG1⟩ :=
    wc_ok_anatomy s r hr sym i1 c1 a b hne1 hsym hInv h1
  have hInv1 := wc_ok_inv s r hr sym i1 c1 a b hne1 hsym hInv h1
  obtain ⟨r1, hr1⟩ := Option.isSome_iff_exists.mp hSome1
  obtain ⟨j2, e2, hSome2, hfind2, hjlt2, hget2, hesym2, hecnt2, heoff2, hDA2, hSZ2, hG2⟩ :=
    wc_ok_anatomy _ r1 hr1 sym i2 c2 a2 b2 hne2 hsym hInv1 h2
  have hfind1r : findSymbolIdx r1.symbol_index.entries sym = some j := by
    rw [← entriesOf_eq _ r1 hr1]
    exact hfind1
  rcases hG2 with ⟨hfound2, hE2, hSC2, _⟩ | ⟨hnone2, _⟩
  · have hjj : j2 = j := by
      rw [hfind1r] at hfound2
      exact (Option.some.inj hfound2).symm
    subst hjj
    refine ⟨j2, e2, hfind1, hfind2, ?_, ?_, ?_, hesym2, hecnt2⟩
    · show (entriesOf _).length = (entriesOf _).length
      rw [hE2, entriesOf_eq _ r1 hr1]
      simp
    · rw [hSC2, symbolCountOf_eq _ r1 hr1]
    · rw [hE2, entriesOf_eq _ r1 hr1]
  · rw [hfind1r] at hnone2
    exact absurd hnone2 (by simp)

theorem C2_second_write_resolves_same_entry_witness :
    ((Create initialWriter [120] 1048576 1 0 PlatformResult.ok).2.region_.isSome =
       true ∧
     WriterInv (Create initialWriter [120] 1048576 1 0 PlatformResult.ok).2 ∧
     setSymbolBytes [66, 84, 67] = [66, 84, 67] ∧
     ([⟨1, 2, 3, 4, 5, 6⟩] : List CandleData) ≠ [] ∧
     ([⟨2, 2, 3, 4, 5, 6⟩, ⟨3, 2, 3, 4, 5, 6⟩] : List CandleData) ≠ [] ∧
     (WriteCandles (Create initialWriter [120] 1048576 1 0 PlatformResult.ok).2
        [66, 84, 67] [49] [⟨1, 2, 3, 4, 5, 6⟩] 0 0).1 = .OK ∧
     (WriteCandles (WriteCandles (Create initialWriter [120] 1048576 1 0
          PlatformResult.ok).2 [66, 84, 67] [49] [⟨1, 2, 3, 4, 5, 6⟩] 0 0).2.1
        [66, 84, 67] [50] [⟨2, 2, 3, 4, 5, 6⟩, ⟨3, 2, 3, 4, 5, 6⟩] 1 2).1 = .OK) ∧
    (∃ j e2,
      findSymbolIdx (entriesOf (WriteCandles (Create initialWriter [120] 1048576 1 0
          PlatformResult.ok).2 [66, 84, 67] [49] [⟨1, 2, 3, 4, 5, 6⟩] 0 0).2.1)
        [66, 84, 67] = some j ∧
      findSymbolIdx (entriesOf (WriteCandles (WriteCandles (Create initialWriter
          [120] 1048576 1 0 PlatformResult.ok).2 [66, 84, 67] [49]
          [⟨1, 2, 3, 4, 5, 6⟩] 0 0).2.1
          [66, 84, 67] [50] [⟨2, 2, 3, 4, 5, 6⟩, ⟨3, 2, 3, 4, 5, 6⟩] 1 2).2.1)
        [66, 84, 67] = some j ∧
      indexCountOf (WriteCandles (WriteCandles (Create initialWriter [120] 1048576 1 0
          PlatformResult.ok).2 [66, 84, 67] [49] [⟨1, 2, 3, 4, 5, 6⟩] 0 0).2.1
          [66, 84, 67] [50] [⟨2, 2, 3, 4, 5, 6⟩, ⟨3, 2, 3, 4, 5, 6⟩] 1 2).2.1 =
        indexCountOf (WriteCandles (Create initialWriter [120] 1048576 1 0
          PlatformResult.ok).2 [66, 84, 67] [49] [⟨1, 2, 3, 4, 5, 6⟩] 0 0).2.1 ∧
      symbolCountOf (WriteCandles (WriteCandles (Create initialWriter [120] 1048576 1 0
          PlatformResult.ok).2 [66, 84, 67] [49] [⟨1, 2, 3, 4, 5, 6⟩] 0 0).2.1
          [66, 84, 67] [50] [⟨2, 2, 3, 4, 5, 6⟩, ⟨3, 2, 3, 4, 5, 6⟩] 1 2).2.1 =
        symbolCountOf (WriteCandles (Create initialWriter [120] 1048576 1 0
          PlatformResult.ok).2 [66, 84, 67] [49] [⟨1, 2, 3, 4, 5, 6⟩] 0 0).2.1 ∧
      entriesOf (WriteCandles (WriteCandles (Create initialWriter [120] 1048576 1 0
          PlatformResult.ok).2 [66, 84, 67] [49] [⟨1, 2, 3, 4, 5, 6⟩] 0 0).2.1
          [66, 84, 67] [50] [⟨2, 2, 3, 4, 5, 6⟩, ⟨3, 2, 3, 4, 5, 6⟩] 1 2).2.1 =
        (entriesOf (WriteCandles (Create initialWriter [120] 1048576 1 0
          PlatformResult.ok).2 [66, 84, 67] [49] [⟨1, 2, 3, 4, 5, 6⟩] 0 0).2.1).set j e2 ∧
      e2.symbol = [66, 84, 67] ∧
      e2.candle_count =
        ([⟨2, 2, 3, 4, 5, 6⟩, ⟨3, 2, 3, 4, 5, 6⟩] : List CandleData).length) :=
  ⟨⟨by decide, by decide, by decide, by decide, by decide, by decide, by decide⟩,
   C2_second_write_resolves_same_entry
     (Create initialWriter [120] 1048576 1 0 PlatformResult.ok).2
     [66, 84, 67] [49] [50] [⟨1, 2, 3, 4, 5, 6⟩]
     [⟨2, 2, 3, 4, 5, 6⟩, ⟨3, 2, 3, 4, 5, 6⟩] 0 0 1 2
     (by decide) (by decide) (by decide) (by decide) (by decide) (by decide)
     (by decide)⟩

/-- C5. `allocate_data_block(size)` fails — returning the sentinel
offset 0, which `WriteCandles` surfaces as WriteFailed — exactly when
`cursor + size` exceeds the region's total size; otherwise it returns
the current cursor as the block's offset, advances the cursor by
exactly `size`, and zero-fills all `size` claimed bytes (its only
store), and in every `WriteCandles` trace the zero-fill precedes every
store into a data block. -/
theorem C5_allocate_spec :
    (∀ (s : SharedMemoryWriter) (size : Nat),
      DATA_SECTIONS_OFFSET ≤ s.next_data_offset_ →
      (((allocate_data_block s size).1 = 0) ↔
        s.size_ < s.next_data_offset_ + size) ∧
      (¬ s.size_ < s.next_data_offset_ + size →
        (allocate_data_block s size).1 = s.next_data_offset_ ∧
        (allocate_data_block s size).2.1.next_data_offset_ =
          s.next_data_offset_ + size ∧
        (allocate_data_block s size).2.2 =
          [⟨WriteKind.zeroFill, s.next_data_offset_, size⟩]) ∧
      (s.size_ < s.next_data_offset_ + size →
        (allocate_data_block s size).2.1 = s ∧
        (allocate_data_block s size).2.2 = [])) ∧
    (∀ (s : SharedMemoryWriter) (sym intv : Bytes) (c : List CandleData) (n1 n2 : Nat),
      s.region_.isSome = true → c ≠ [] →
      ¬ MAX_CANDLES_PER_SYMBOL < c.length →
      findSymbolIdx (entriesOf s) sym = none →
      indexCountOf s < MAX_SYMBOLS →
      s.size_ < s.next_data_offset_ + RequiredSize c.length →
      (WriteCandles s sym intv c n1 n2).1 = .WRITE_FAILED) ∧
    (∀ (s : SharedMemoryWriter) (sym intv : Bytes) (c : List CandleData) (n1 n2 : Nat),
      ∃ pre post, (WriteCandles s sym intv c n1 n2).2.2 = pre ++ post ∧
        (∀ w ∈ pre, w.kind ≠ WriteKind.payload) ∧
        (∀ w ∈ post, w.kind ≠ WriteKind.zeroFill)) := by
  refine ⟨?_, ?_, fun s sym intv c n1 n2 => wc_trace_split s sym intv c n1 n2⟩
  · intro s size hge
    refine ⟨?_, ?_, ?_⟩
    · constructor
      · intro h0
        by_cases hz : s.size_ < s.next_data_offset_ + size
        · exact hz
        · exfalso
          simp [allocate_data_block, hz] at h0
          rw [h0] at hge
          simp [DATA_SECTIONS_OFFSET] at hge
      · intro hz
        simp [allocate_data_block, hz]
    · intro hz
      simp [allocate_data_block, hz]
    · intro hz
      simp [allocate_data_block, hz]
  · intro s sym intv c n1 n2 hinit hne hlen hfind hcount hz
    obtain ⟨r, hr⟩ := Option.isSome_iff_exists.mp hinit
    have hfind' : (begin_write r).symbol_index.FindIdx sym = none := by
      show findSymbolIdx r.symbol_index.entries sym = none
      rw [← entriesOf_eq s r hr]
      exact hfind
    have hlt : (begin_write r).symbol_index.count < MAX_SYMBOLS := by
      show r.symbol_index.entries.length < MAX_SYMBOLS
      rw [← entriesOf_eq s r hr]
      exact hcount
    have hfoa := foa_fresh (begin_write r) sym hfind' hlt
    have hneed : (entryAt
          { begin_write r with
            symbol_index := ⟨(begin_write r).symbol_index.entries ++
              [{ emptyEntry with symbol := setSymbolBytes sym }]⟩
            header := { (begin_write r).header with
                        symbol_count := (begin_write r).symbol_index.entries.length + 1 } }
          (begin_write r).symbol_index.entries.length).data_offset = 0 ∨
        (entryAt
          { begin_write r with
            symbol_index := ⟨(begin_write r).symbol_index.entries ++
              [{ emptyEntry with symbol := setSymbolBytes sym }]⟩
            header := { (begin_write r).header with
                        symbol_count := (begin_write r).symbol_index.entries.length + 1 } }
          (begin_write r).symbol_index.entries.length).data_size <
          RequiredSize c.length := by
      refine Or.inl ?_
      simp only [entryAt]
      rw [getD_append_len]
      simp [emptyEntry]
    rw [wc_alloc_fail s r _ hr sym intv c n1 n2 _ _ hne hlen hfoa hneed hz]

theorem C5_allocate_spec_witness :
    (DATA_SECTIONS_OFFSET ≤
       (Create initialWriter [120] 1048576 1 0 PlatformResult.ok).2.next_data_offset_ ∧
     ¬ (Create initialWriter [120] 1048576 1 0 PlatformResult.ok).2.size_ <
       (Create initialWriter [120] 1048576 1 0 PlatformResult.ok).2.next_data_offset_ +
         104 ∧
     (Create initialWriter [120] 4352 1 0 PlatformResult.ok).2.region_.isSome = true ∧
     (Create initialWriter [120] 4352 1 0 PlatformResult.ok).2.size_ <
       (Create initialWriter [120] 4352 1 0 PlatformResult.ok).2.next_data_offset_ +
         RequiredSize 1) ∧
    ((allocate_data_block (Create initialWriter [120] 1048576 1 0
         PlatformResult.ok).2 104).1 =
       (Create initialWriter [120] 1048576 1 0 PlatformResult.ok).2.next_data_offset_ ∧
     (allocate_data_block (Create initialWriter [120] 1048576 1 0
         PlatformResult.ok).2 104).2.1.next_data_offset_ =
       (Create initialWriter [120] 1048576 1 0
         PlatformResult.ok).2.next_data_offset_ + 104 ∧
     (allocate_data_block (Create initialWriter [120] 1048576 1 0
         PlatformResult.ok).2 104).2.2 =
       [⟨WriteKind.zeroFill,
         (Create initialWriter [120] 1048576 1 0 PlatformResult.ok).2.next_data_offset_,
         104⟩]) ∧
    (WriteCandles (Create initialWriter [120] 4352 1 0 PlatformResult.ok).2
       [66] [49] [⟨1, 2, 3, 4, 5, 6⟩] 0 0).1 = .WRITE_FAILED ∧
    (∃ pre post,
      (WriteCandles (Create initialWriter [120] 1048576 1 0 PlatformResult.ok).2
         [66] [49] [⟨1, 2, 3, 4, 5, 6⟩] 0 0).2.2 = pre ++ post ∧
      (∀ w ∈ pre, w.kind ≠ WriteKind.payload) ∧
      (∀ w ∈ post, w.kind ≠ WriteKind.zeroFill)) :=
  ⟨⟨by decide, by decide, by decide, by decide⟩,
   (C5_allocate_spec.1 (Create initialWriter [120] 1048576 1 0 PlatformResult.ok).2
      104 (by decide)).2.1 (by decide),
   C5_allocate_spec.2.1 (Create initialWriter [120] 4352 1 0 PlatformResult.ok).2
     [66] [49] [⟨1, 2, 3, 4, 5, 6⟩] 0 0
     (by decide) (by decide) (by decide) (by decide) (by decide) (by decide),
   C5_allocate_spec.2.2 (Create initialWriter [120] 1048576 1 0 PlatformResult.ok).2
     [66] [49] [⟨1, 2, 3, 4, 5, 6⟩] 0 0⟩

/-- C6 counterexample.  Two failure modes of the claim as stated:
(1) under a 16-byte symbol the second call resolves to a fresh entry
(the C2 defect), so although the required size for 1 candle (104 B)
fits the first entry's recorded `data_size` (152 B), a new block at a
different offset is written — offsets [16640, 16792], counts [2, 1];
(2) with n2 = 0 the call is the empty no-op: it returns OK but leaves
the block's count at n1 = 2 instead of setting it to 0. -/
theorem C6_fit_not_honored_counterexample :
    (WriteCandles (Create initialWriter [120] 1048576 1 0 PlatformResult.ok).2
        (List.replicate 16 65) [49] [⟨1, 2, 3, 4, 5, 6⟩, ⟨2, 2, 3, 4, 5, 6⟩]
        0 0).1 = WriterError.OK ∧
    RequiredSize 1 ≤
      ((entriesOf (WriteCandles (Create initialWriter [120] 1048576 1 0
          PlatformResult.ok).2 (List.replicate 16 65) [49]
          [⟨1, 2, 3, 4, 5, 6⟩, ⟨2, 2, 3, 4, 5, 6⟩] 0 0).2.1).getD 0
        emptyEntry).data_size ∧
    (WriteCandles (WriteCandles (Create initialWriter [120] 1048576 1 0
          PlatformResult.ok).2 (List.replicate 16 65) [49]
          [⟨1, 2, 3, 4, 5, 6⟩, ⟨2, 2, 3, 4, 5, 6⟩] 0 0).2.1
        (List.replicate 16 65) [49] [⟨3, 2, 3, 4, 5, 6⟩] 0 0).1 = WriterError.OK ∧
    (entriesOf (WriteCandles (WriteCandles (Create initialWriter [120] 1048576 1 0
          PlatformResult.ok).2 (List.replicate 16 65) [49]
          [⟨1, 2, 3, 4, 5, 6⟩, ⟨2, 2, 3, 4, 5, 6⟩] 0 0).2.1
        (List.replicate 16 65) [49] [⟨3, 2, 3, 4, 5, 6⟩] 0 0).2.1).map
      (fun e => e.data_offset) = [16640, 16792] ∧
    (entriesOf (WriteCandles (WriteCandles (Create initialWriter [120] 1048576 1 0
          PlatformResult.ok).2 (List.replicate 16 65) [49]
          [⟨1, 2, 3, 4, 5, 6⟩, ⟨2, 2, 3, 4, 5, 6⟩] 0 0).2.1
        (List.replicate 16 65) [49] [⟨3, 2, 3, 4, 5, 6⟩] 0 0).2.1).map
      (fun e => e.candle_count) = [2, 1] ∧
    (WriteCandles (WriteCandles (Create initialWriter [120] 1048576 1 0
          PlatformResult.ok).2 [66] [49]
          [⟨1, 2, 3, 4, 5, 6⟩, ⟨2, 2, 3, 4, 5, 6⟩] 0 0).2.1
        [66] [49] [] 0 0).1 = WriterError.OK ∧
    RequiredSize 0 ≤
      ((entriesOf (WriteCandles (Create initialWriter [120] 1048576 1 0
          PlatformResult.ok).2 [66] [49]
          [⟨1, 2, 3, 4, 5, 6⟩, ⟨2, 2, 3, 4, 5, 6⟩] 0 0).2.1).getD 0
        emptyEntry).data_size ∧
    ((entriesOf (WriteCandles (WriteCandles (Create initialWriter [120] 1048576 1 0
          PlatformResult.ok).2 [66] [49]
          [⟨1, 2, 3, 4, 5, 6⟩, ⟨2, 2, 3, 4, 5, 6⟩] 0 0).2.1
        [66] [49] [] 0 0).2.1).getD 0 emptyEntry).candle_count = 2 ∧
    (2 : Nat) ≠ 0 := by
  decide

/-- C6 (amended).  For a stored-form-stable symbol (at most 15 bytes,
no NUL) and two consecutive successful `WriteCandles` calls with
non-empty lists of n1 then n2 candles: the second call resolves to the
same slot; if the required size for n2 fits the entry's recorded
`data_size` the entry keeps its `data_offset` and `data_size` and the
block there is rewritten with count n2; otherwise a brand-new block is
claimed exactly at the bump cursor — at or above the end of the old
block, so strictly above the old offset and never reusing its bytes —
and the entry is repointed to it with `data_size` equal to the new
required size. -/
theorem C6_reuse_or_relocate (s : SharedMemoryWriter)
    (sym i1 i2 : Bytes) (c1 c2 : List CandleData) (a b a2 b2 : Nat)
    (hinit : s.region_.isSome = true) (hInv : WriterInv s)
    (hsym : setSymbolBytes sym = sym)
    (hne1 : c1 ≠ []) (hne2 : c2 ≠ [])
    (h1 : (WriteCandles s sym i1 c1 a b).1 = .OK)
    (h2 : (WriteCandles (WriteCandles s sym i1 c1 a b).2.1 sym i2 c2 a2 b2).1 = .OK) :
    ∃ j e1 e2,
      findSymbolIdx (entriesOf (WriteCandles s sym i1 c1 a b).2.1) sym = some j ∧
      (entriesOf (WriteCandles s sym i1 c1 a b).2.1).getD j emptyEntry = e1 ∧
      (entriesOf (WriteCandles (WriteCandles s sym i1 c1 a b).2.1
        sym i2 c2 a2 b2).2.1).getD j emptyEntry = e2 ∧
      e1.candle_count = c1.length ∧
      e2.candle_count = c2.length ∧
      dataAt (WriteCandles (WriteCandles s sym i1 c1 a b).2.1
        sym i2 c2 a2 b2).2.1 e2.data_offset = some (mkBlock sym i2 c2) ∧
      (mkBlock sym i2 c2).count = c2.length ∧
      (if RequiredSize c2.length ≤ e1.data_size then
        e2.data_offset = e1.data_offset ∧ e2.data_size = e1.data_size
       else
        e2.data_offset = (WriteCandles s sym i1 c1 a b).2.1.next_data_offset_ ∧
        e1.data_offset + e1.data_size ≤ e2.data_offset ∧
        e1.data_offset < e2.data_offset ∧
        e2.data_size = RequiredSize c2.length) := by
  obtain ⟨r, hr⟩ := Option.isSome_iff_exists.mp hinit
  obtain ⟨j, e1, hSome1, hfind1, hjlt1, hget1, hesym1, hecnt1, heoff1, hDA1, hSZ1, hG1⟩ :=
    wc_ok_anatomy s r hr sym i1 c1 a b hne1 hsym hInv h1
  have hInv1 := wc_ok_inv s r hr sym i1 c1 a b hne1 hsym hInv h1
  obtain ⟨r1, hr1⟩ := Option.isSome_iff_exists.mp hSome1
  obtain ⟨j2, e2, hSome2, hfind2, hjlt2, hget2, hesym2, hecnt2, heoff2, hDA2, hSZ2, hG2⟩ :=
    wc_ok_anatomy _ r1 hr1 sym i2 c2 a2 b2 hne2 hsym hInv1 h2
  have hfind1r : findSymbolIdx r1.symbol_index.entries sym = some j := by
    rw [← entriesOf_eq _ r1 hr1]
    exact hfind1
  rcases hG2 with ⟨hfound2, hE2, hSC2, hsub2⟩ | ⟨hnone2, _⟩
  swap
  · rw [hfind1r] at hnone2
    exact absurd hnone2 (by simp)
  have hjj : j2 = j := by
    rw [hfind1r] at hfound2
    exact (Option.some.inj hfound2).symm
  subst hjj
  have hpre : r1.symbol_index.entries.getD j2 emptyEntry = e1 := by
    rw [← entriesOf_eq _ r1 hr1]
    exact hget1
  refine ⟨j2, e1, e2, hfind1, hget1, hget2, hecnt1, hecnt2, hDA2, rfl, ?_⟩
  have hnz : e1.data_offset ≠ 0 := by
    intro h0
    rw [h0] at heoff1
    simp [DATA_SECTIONS_OFFSET] at heoff1
  rcases hsub2 with ⟨hkeep2, hOF2, hDS2, hNX2⟩ | ⟨hneed2, hOF2, hDS2, hNX2, hBD2⟩
  · rw [hpre] at hkeep2 hOF2 hDS2
    push_neg at hkeep2
    rw [if_pos hkeep2.2]
    exact ⟨hOF2, hDS2⟩
  · rw [hpre] at hneed2
    have hlt2 : e1.data_size < RequiredSize c2.length := by
      rcases hneed2 with h0 | h0
      · exact absurd h0 hnz
      · exact h0
    rw [if_neg (Nat.not_le.mpr hlt2)]
    obtain ⟨_, _, _, _, hent1⟩ := writerInv_some _ r1 hr1 hInv1
    have hj2len : j2 < r1.symbol_index.entries.length := by
      rw [← entriesOf_eq _ r1 hr1]
      exact hjlt1
    have hmem1 : e1 ∈ r1.symbol_index.entries := by
      rw [← hpre]
      exact mem_getD _ _ _ hj2len
    have he1Ok := hent1 _ hmem1
    have hbox : 0 < e1.data_size ∧
        e1.data_offset + e1.data_size ≤
          (WriteCandles s sym i1 c1 a b).2.1.next_data_offset_ := by
      rcases he1Ok.2 with h0 | h0
      · exact absurd h0 hnz
      · exact ⟨h0.2.1, h0.2.2⟩
    refine ⟨hOF2, ?_, ?_, hDS2⟩
    · rw [hOF2]
      exact hbox.2
    · rw [hOF2]
      have h1b := hbox.1
      have h2b := hbox.2
      omega

theorem C6_reuse_or_relocate_witness :
    ((Create initialWriter [120] 1048576 1 0 PlatformResult.ok).2.region_.isSome =
       true ∧
     WriterInv (Create initialWriter [120] 1048576 1 0 PlatformResult.ok).2 ∧
     setSymbolBytes [66] = [66] ∧
     (List.replicate 50 (⟨1, 2, 3, 4, 5, 6⟩ : CandleData)) ≠ [] ∧
     (List.replicate 10 (⟨2, 2, 3, 4, 5, 6⟩ : CandleData)) ≠ [] ∧
     (WriteCandles (Create initialWriter [120] 1048576 1 0 PlatformResult.ok).2
        [66] [49] (List.replicate 50 ⟨1, 2, 3, 4, 5, 6⟩) 0 0).1 = .OK ∧
     (WriteCandles (WriteCandles (Create initialWriter [120] 1048576 1 0 PlatformResult.ok).2
        [66] [49] (List.replicate 50 ⟨1, 2, 3, 4, 5, 6⟩) 0 0).2.1
        [66] [50] (List.replicate 10 ⟨2, 2, 3, 4, 5, 6⟩) 1 2).1 = .OK) ∧
    (∃ j e1 e2,
      findSymbolIdx (entriesOf (WriteCandles (Create initialWriter [120] 1048576 1 0 PlatformResult.ok).2
        [66] [49] (List.replicate 50 ⟨1, 2, 3, 4, 5, 6⟩) 0 0).2.1) [66] = some j ∧
      (entriesOf (WriteCandles (Create initialWriter [120] 1048576 1 0 PlatformResult.ok).2
        [66] [49] (List.replicate 50 ⟨1, 2, 3, 4, 5, 6⟩) 0 0).2.1).getD j emptyEntry = e1 ∧
      (entriesOf (WriteCandles (WriteCandles (Create initialWriter [120] 1048576 1 0 PlatformResult.ok).2
        [66] [49] (List.replicate 50 ⟨1, 2, 3, 4, 5, 6⟩) 0 0).2.1
        [66] [50] (List.replicate 10 ⟨2, 2, 3, 4, 5, 6⟩) 1 2).2.1).getD j emptyEntry = e2 ∧
      e1.candle_count = (List.replicate 50 (⟨1, 2, 3, 4, 5, 6⟩ : CandleData)).length ∧
      e2.candle_count = (List.replicate 10 (⟨2, 2, 3, 4, 5, 6⟩ : CandleData)).length ∧
      dataAt (WriteCandles (WriteCandles (Create initialWriter [120] 1048576 1 0 PlatformResult.ok).2
        [66] [49] (List.replicate 50 ⟨1, 2, 3, 4, 5, 6⟩) 0 0).2.1
        [66] [50] (List.replicate 10 ⟨2, 2, 3, 4, 5, 6⟩) 1 2).2.1 e2.data_offset =
        some (mkBlock [66] [50] (List.replicate 10 ⟨2, 2, 3, 4, 5, 6⟩)) ∧
      (mkBlock [66] [50] (List.replicate 10 (⟨2, 2, 3, 4, 5, 6⟩ : CandleData))).count =
        (List.replicate 10 (⟨2, 2, 3, 4, 5, 6⟩ : CandleData)).length ∧
      (if RequiredSize (List.replicate 10 (⟨2, 2, 3, 4, 5, 6⟩ : CandleData)).length ≤
          e1.data_size then
        e2.data_offset = e1.data_offset ∧ e2.data_size = e1.data_size
       else
        e2.data_offset = ((WriteCandles (Create initialWriter [120] 1048576 1 0 PlatformResult.ok).2
        [66] [49] (List.replicate 50 ⟨1, 2, 3, 4, 5, 6⟩) 0 0).2.1).next_data_offset_ ∧
        e1.data_offset + e1.data_size ≤ e2.data_offset ∧
        e1.data_offset < e2.data_offset ∧
        e2.data_size =
          RequiredSize (List.replicate 10 (⟨2, 2, 3, 4, 5, 6⟩ : CandleData)).length)) :=
  ⟨⟨by decide, by decide, by decide, by decide, by decide, by decide, by decide⟩,
   C6_reuse_or_relocate (Create initialWriter [120] 1048576 1 0 PlatformResult.ok).2
     [66] [49] [50] (List.replicate 50 ⟨1, 2, 3, 4, 5, 6⟩)
     (List.replicate 10 ⟨2, 2, 3, 4, 5, 6⟩) 0 0 1 2
     (by decide) (by decide) (by decide) (by decide) (by decide) (by decide)
     (by decide)⟩

end ShmSpec
